import Mathlib

/-!
# Verification of the rk-db connection-lifecycle and domain-filtering protocol

Shallow embedding of the core logic of the rookie-ninja/rk-db repository:

* the domain-filtering registration loop shared by `RegisterMySqlEntryYAML`
  (mysql/boot.go) and `RegisterPostgresEntry` (postgres/boot.go);
* the `connect` / `Bootstrap` / `IsHealthy` / `Interrupt` lifecycle of the
  mysql, postgres and sqlite entries, modelled as trace-producing functions
  over an explicit environment oracle;
* the postgres background health-check goroutine, modelled as a discrete
  transition system;
* the redis entry's client-type dispatch and accessors.

Pure functions are translated directly; I/O calls (gorm.Open, Exec, Ping,
close) query an environment oracle keyed by call index and leave an event in
an explicit trace.
-/

namespace RkDb

/-- Modelled from the spec: `rkentry.IsValidDomain` lives in the external
rk-entry dependency (not in this repository).  Per the spec's Domain Selector
contract, an entry domain of `"*"` or `""` matches any runtime domain;
otherwise the entry domain must equal the runtime domain exactly. -/
def IsValidDomain (runtimeDomain d : String) : Bool :=
  d = "" || d = "*" || d = runtimeDomain

/-- Raw YAML configuration entry (`BootMySQLE` of mysql/boot.go; `BootPostgresE`
of postgres/boot.go has the same fields used by the filtering loop).  The
`addr` field stands for the payload that distinguishes two entries. -/
structure BootMySQLE where
  enabled : Bool
  name : String
  domain : String
  user : String
  pass : String
  addr : String
deriving DecidableEq

/-- Pointwise update of a name-keyed map (`configMap[e.Name] = e`). -/
def mapUpd (m : String → Option BootMySQLE) (k : String) (v : BootMySQLE) :
    String → Option BootMySQLE :=
  fun n => if n = k then some v else m n

/-- One iteration of the domain-filtering loop of `RegisterMySqlEntryYAML`
(mysql/boot.go lines 178-201) / `RegisterPostgresEntry` (postgres/boot.go
lines 600-623): skip disabled or unnamed entries, skip entries whose domain
does not match, insert fresh names, and for an already-present name keep the
stored entry exactly when the incoming entry's domain is wildcard or empty. -/
def registerStep (runtime : String) (m : String → Option BootMySQLE)
    (e : BootMySQLE) : String → Option BootMySQLE :=
  if e.enabled = false ∨ e.name.length < 1 then m
  else if IsValidDomain runtime e.domain = false then m
  else
    match m e.name with
    | none => mapUpd m e.name e
    | some _ => if e.domain = "" ∨ e.domain = "*" then m else mapUpd m e.name e

/-- The whole filtering loop: fold `registerStep` over the configuration list
in input order, starting from the empty map. -/
def buildConfigMap (runtime : String) (l : List BootMySQLE) :
    String → Option BootMySQLE :=
  l.foldl (registerStep runtime) (fun _ => none)

/-- An entry domain is a wildcard when it is empty or `"*"`. -/
def isWildcardDomain (d : String) : Bool := d = "" || d = "*"

lemma registerStep_skip {runtime : String} {m : String → Option BootMySQLE}
    {e : BootMySQLE} (h : e.enabled = false ∨ e.name.length < 1) :
    registerStep runtime m e = m := by
  unfold registerStep
  rw [if_pos h]

lemma registerStep_invalid {runtime : String} {m : String → Option BootMySQLE}
    {e : BootMySQLE} (h : IsValidDomain runtime e.domain = false) :
    registerStep runtime m e = m := by
  unfold registerStep
  rcases Decidable.em (e.enabled = false ∨ e.name.length < 1) with h1 | h1
  · rw [if_pos h1]
  · rw [if_neg h1, if_pos h]

lemma registerStep_ne {runtime : String} {m : String → Option BootMySQLE}
    {e : BootMySQLE} {n : String} (h : e.name ≠ n) :
    registerStep runtime m e n = m n := by
  unfold registerStep
  rcases Decidable.em (e.enabled = false ∨ e.name.length < 1) with h1 | h1
  · rw [if_pos h1]
  · rw [if_neg h1]
    rcases Decidable.em (IsValidDomain runtime e.domain = false) with h2 | h2
    · rw [if_pos h2]
    · rw [if_neg h2]
      cases hm : m e.name with
      | none => simp [mapUpd, Ne.symm h]
      | some w =>
        rcases Decidable.em (e.domain = "" ∨ e.domain = "*") with h3 | h3
        · rw [if_pos h3]
        · rw [if_neg h3]
          simp [mapUpd, Ne.symm h]

lemma registerStep_active {runtime : String} {m : String → Option BootMySQLE}
    {e : BootMySQLE} (hen : e.enabled = true) (hname : 1 ≤ e.name.length)
    (hdom : IsValidDomain runtime e.domain = true) :
    registerStep runtime m e =
      match m e.name with
      | none => mapUpd m e.name e
      | some _ =>
          if e.domain = "" ∨ e.domain = "*" then m else mapUpd m e.name e := by
  have h1 : ¬(e.enabled = false ∨ e.name.length < 1) := by
    push_neg
    exact ⟨by simp [hen], by omega⟩
  have h2 : ¬(IsValidDomain runtime e.domain = false) := by simp [hdom]
  unfold registerStep
  rw [if_neg h1, if_neg h2]

lemma buildConfigMap_append_single (runtime : String) (l : List BootMySQLE)
    (e : BootMySQLE) :
    buildConfigMap runtime (l ++ [e]) =
      registerStep runtime (buildConfigMap runtime l) e := by
  unfold buildConfigMap
  rw [List.foldl_append]
  rfl

/-- Concrete configuration entries used in counterexamples and witnesses. -/
def entProdA : BootMySQLE :=
  { enabled := true, name := "db1", domain := "prod", user := "root",
    pass := "pw", addr := "hostA:3306" }

def entProdB : BootMySQLE :=
  { enabled := true, name := "db1", domain := "prod", user := "root",
    pass := "pw", addr := "hostB:3306" }

def entWild : BootMySQLE :=
  { enabled := true, name := "db1", domain := "*", user := "root",
    pass := "pw", addr := "hostW:3306" }

def entWild2 : BootMySQLE :=
  { enabled := true, name := "db1", domain := "", user := "root",
    pass := "pw", addr := "hostW2:3306" }

/-- Among the entries of `l` that pass the registration filter and share
`eSpec`'s name, `eSpec` is the only one with a specific (non-wildcard)
domain. -/
def OnlySpecific (runtime : String) (eSpec : BootMySQLE)
    (l : List BootMySQLE) : Prop :=
  ∀ e' ∈ l, e'.enabled = true → 1 ≤ e'.name.length →
    IsValidDomain runtime e'.domain = true → e'.name = eSpec.name →
    e'.domain ≠ "" → e'.domain ≠ "*" → e' = eSpec

lemma bool_eq_true_of_ne_false {b : Bool} (h : ¬b = false) : b = true := by
  cases b
  · exact absurd rfl h
  · rfl

/-- Once the unique specific-domain entry is stored for its name, the rest of
the filtering fold never displaces it. -/
lemma foldl_stable (runtime : String) (eSpec : BootMySQLE) :
    ∀ (l : List BootMySQLE) (m : String → Option BootMySQLE),
      m eSpec.name = some eSpec →
      OnlySpecific runtime eSpec l →
      l.foldl (registerStep runtime) m eSpec.name = some eSpec := by
  intro l
  induction l with
  | nil => intro m hm _; exact hm
  | cons a t ih =>
    intro m hm huniq
    have ht : OnlySpecific runtime eSpec t :=
      fun e' he' => huniq e' (List.mem_cons_of_mem a he')
    rw [List.foldl_cons]
    by_cases hskip : a.enabled = false ∨ a.name.length < 1
    · rw [registerStep_skip hskip]
      exact ih m hm ht
    · by_cases hval : IsValidDomain runtime a.domain = false
      · rw [registerStep_invalid hval]
        exact ih m hm ht
      · push_neg at hskip
        have hen : a.enabled = true := bool_eq_true_of_ne_false hskip.1
        have hlen : 1 ≤ a.name.length := by omega
        have hval' : IsValidDomain runtime a.domain = true :=
          bool_eq_true_of_ne_false hval
        by_cases hn : a.name = eSpec.name
        · rw [registerStep_active hen hlen hval']
          have hma : m a.name = some eSpec := by rw [hn]; exact hm
          simp only [hma]
          rcases Decidable.em (a.domain = "" ∨ a.domain = "*") with hw | hw
          · rw [if_pos hw]
            exact ih m hm ht
          · rw [if_neg hw]
            push_neg at hw
            have hae : a = eSpec :=
              huniq a (List.mem_cons_self a t) hen hlen hval' hn hw.1 hw.2
            refine ih (mapUpd m a.name a) ?_ ht
            simp [mapUpd, hn, hae]
        · refine ih (registerStep runtime m a) ?_ ht
          rw [registerStep_ne hn]
          exact hm

/-- Starting from a state where `eSpec`'s name is absent or held by a
wildcard entry, the filtering fold ends with `eSpec` stored. -/
lemma foldl_reach (runtime : String) (eSpec : BootMySQLE)
    (hen : eSpec.enabled = true) (hlen : 1 ≤ eSpec.name.length)
    (hdom : IsValidDomain runtime eSpec.domain = true)
    (hd1 : eSpec.domain ≠ "") (hd2 : eSpec.domain ≠ "*") :
    ∀ (l : List BootMySQLE) (m : String → Option BootMySQLE),
      (m eSpec.name = none ∨
        ∃ w, m eSpec.name = some w ∧ (w.domain = "" ∨ w.domain = "*")) →
      eSpec ∈ l → OnlySpecific runtime eSpec l →
      l.foldl (registerStep runtime) m eSpec.name = some eSpec := by
  intro l
  induction l with
  | nil => intro m _ hmem _; cases hmem
  | cons a t ih =>
    intro m hinv hmem huniq
    have ht : OnlySpecific runtime eSpec t :=
      fun e' he' => huniq e' (List.mem_cons_of_mem a he')
    rw [List.foldl_cons]
    by_cases hae : a = eSpec
    · subst hae
      rw [registerStep_active hen hlen hdom]
      have hnw : ¬(a.domain = "" ∨ a.domain = "*") := by
        push_neg
        exact ⟨hd1, hd2⟩
      rcases hinv with hnone | ⟨w, hw, _⟩
      · simp only [hnone]
        refine foldl_stable runtime a t (mapUpd m a.name a) ?_ ht
        simp [mapUpd]
      · simp only [hw, if_neg hnw]
        refine foldl_stable runtime a t (mapUpd m a.name a) ?_ ht
        simp [mapUpd]
    · have hmem' : eSpec ∈ t := by
        rcases List.mem_cons.mp hmem with h | h
        · exact absurd h.symm hae
        · exact h
      refine ih (registerStep runtime m a) ?_ hmem' ht
      by_cases hskip : a.enabled = false ∨ a.name.length < 1
      · rw [registerStep_skip hskip]
        exact hinv
      · by_cases hval : IsValidDomain runtime a.domain = false
        · rw [registerStep_invalid hval]
          exact hinv
        · push_neg at hskip
          have hena : a.enabled = true := bool_eq_true_of_ne_false hskip.1
          have hlena : 1 ≤ a.name.length := by omega
          have hvala : IsValidDomain runtime a.domain = true :=
            bool_eq_true_of_ne_false hval
          by_cases hn : a.name = eSpec.name
          · rw [registerStep_active hena hlena hvala]
            have hwild : a.domain = "" ∨ a.domain = "*" := by
              by_contra hnw
              push_neg at hnw
              exact hae (huniq a (List.mem_cons_self a t) hena hlena hvala hn
                hnw.1 hnw.2)
            rcases hinv with hnone | ⟨w, hw, hwwild⟩
            · have hma : m a.name = none := by rw [hn]; exact hnone
              simp only [hma]
              refine Or.inr ⟨a, ?_, hwild⟩
              simp [mapUpd, hn]
            · have hma : m a.name = some w := by rw [hn]; exact hw
              simp only [hma, if_pos hwild]
              exact Or.inr ⟨w, hw, hwwild⟩
          · rw [registerStep_ne hn]
            exact hinv

/-- C1: the claim states that a later enabled, domain-matching entry for an
already-stored name overwrites the stored entry iff the PREVIOUSLY STORED
entry's domain is wildcard or empty, so that a later specific-domain entry
never replaces an earlier specific-domain entry.  On the code this is false:
the loop tests the INCOMING entry's domain (`if e.Domain == "" || e.Domain ==
"*" { continue }`), so a later specific-domain entry replaces an earlier
specific-domain entry.  Concretely, with runtime domain `"prod"` and two
enabled entries named `"db1"` both with domain `"prod"`, the earlier stored
entry `entProdA` has a specific (non-wildcard) domain, yet the later entry
`entProdB` replaces it. -/
theorem C1_counterexample :
    entProdA.domain ≠ "" ∧ entProdA.domain ≠ "*" ∧
    buildConfigMap "prod" [entProdA] "db1" = some entProdA ∧
    buildConfigMap "prod" [entProdA, entProdB] "db1" = some entProdB ∧
    entProdB ≠ entProdA := by
  decide

/-- C1 (amended): for a name already stored, a later enabled, domain-matching
entry overwrites the stored entry if and only if the LATER entry's own domain
is neither empty nor `"*"`; in particular a second wildcard entry is ignored,
and a later specific-domain entry always overwrites the stored entry, even
one whose domain is itself specific. -/
theorem C1_overwrite_rule (runtime : String) (l : List BootMySQLE)
    (e stored : BootMySQLE)
    (hen : e.enabled = true) (hname : 1 ≤ e.name.length)
    (hdom : IsValidDomain runtime e.domain = true)
    (hstored : buildConfigMap runtime l e.name = some stored) :
    buildConfigMap runtime (l ++ [e]) e.name =
      if e.domain = "" ∨ e.domain = "*" then some stored else some e := by
  rw [buildConfigMap_append_single, registerStep_active hen hname hdom]
  rcases Decidable.em (e.domain = "" ∨ e.domain = "*") with h | h
  · simp only [hstored, if_pos h]
  · simp only [hstored, if_neg h]
    simp [mapUpd]

theorem C1_overwrite_rule_witness :
    entProdB.enabled = true ∧ 1 ≤ entProdB.name.length ∧
    IsValidDomain "prod" entProdB.domain = true ∧
    buildConfigMap "prod" [entProdA] entProdB.name = some entProdA ∧
    buildConfigMap "prod" ([entProdA] ++ [entProdB]) entProdB.name =
      (if entProdB.domain = "" ∨ entProdB.domain = "*" then some entProdA
       else some entProdB) :=
  ⟨by decide, by decide, by decide, by decide,
    C1_overwrite_rule "prod" [entProdA] entProdB entProdA (by decide)
      (by decide) (by decide) (by decide)⟩

/-- C3: whenever exactly one specific-domain entry passes the filter for a
name (all other passing entries with that name being wildcard), that entry
is the surviving one for EVERY permutation of the input list: permuting the
input never changes which specific-domain entry wins, and a wildcard entry
loses to the specific entry regardless of their relative order. -/
theorem C3_order_independent (runtime : String) (l : List BootMySQLE)
    (eSpec : BootMySQLE)
    (hmem : eSpec ∈ l) (hen : eSpec.enabled = true)
    (hlen : 1 ≤ eSpec.name.length)
    (hdom : IsValidDomain runtime eSpec.domain = true)
    (hd1 : eSpec.domain ≠ "") (hd2 : eSpec.domain ≠ "*")
    (huniq : OnlySpecific runtime eSpec l) :
    ∀ l', l.Perm l' → buildConfigMap runtime l' eSpec.name = some eSpec := by
  intro l' hperm
  have hmem' : eSpec ∈ l' := hperm.mem_iff.mp hmem
  have huniq' : OnlySpecific runtime eSpec l' :=
    fun e' he' => huniq e' (hperm.mem_iff.mpr he')
  exact foldl_reach runtime eSpec hen hlen hdom hd1 hd2 l' (fun _ => none)
    (Or.inl rfl) hmem' huniq'

theorem C3_order_independent_witness :
    entProdA ∈ [entWild, entProdA] ∧ entProdA.enabled = true ∧
    1 ≤ entProdA.name.length ∧
    IsValidDomain "prod" entProdA.domain = true ∧
    entProdA.domain ≠ "" ∧ entProdA.domain ≠ "*" ∧
    OnlySpecific "prod" entProdA [entWild, entProdA] ∧
    [entWild, entProdA].Perm [entProdA, entWild] ∧
    buildConfigMap "prod" [entProdA, entWild] entProdA.name = some entProdA :=
  ⟨by decide, by decide, by decide, by decide, by decide, by decide,
    by unfold OnlySpecific; decide,
    by decide,
    C3_order_independent "prod" [entWild, entProdA] entProdA (by decide)
      (by decide) (by decide) (by decide) (by decide) (by decide)
      (by unfold OnlySpecific; decide)
      [entProdA, entWild] (by decide)⟩

/-! ## Trace model of the connection lifecycle

`connect`, `Bootstrap`, `IsHealthy` and `Interrupt` perform I/O through gorm.
Each I/O call is recorded as an event; its outcome is drawn from an
environment oracle keyed by a running call index.  Connection handles are
identified with the call index of the `gorm.Open` that produced them. -/

/-- Observable events of the lifecycle functions.  Network events carry the
sub-database name of the loop iteration that produced them (the Go code has
one call site per event kind, each textually indexed by `innerDb.name`). -/
inductive Ev where
  | logInfo (db : Option String) (msg : String)
  | logError (msg : String) (err : Option String)
  | openAdmin (db : String) (dsn : String) (ok : Bool)
  | openTarget (db : String) (dsn : String) (ok : Bool)
  | createDb (db : String) (sql : String) (ok : Bool)
  | queryExists (db : String) (ok : Bool) (found : Bool)
  | closeConn (db : String)
  | quitClose
deriving DecidableEq

/-- The sub-database a lifecycle event belongs to, if any. -/
def evDb : Ev → Option String
  | .logInfo db _ => db
  | .logError _ _ => none
  | .openAdmin db _ _ => some db
  | .openTarget db _ _ => some db
  | .createDb db _ _ => some db
  | .queryExists db _ _ => some db
  | .closeConn db => some db
  | .quitClose => none

def isLogEv : Ev → Bool
  | .logInfo _ _ => true
  | .logError _ _ => true
  | _ => false

def isCloseEv : Ev → Bool
  | .closeConn _ => true
  | _ => false

def isOpenAdminEv : Ev → Bool
  | .openAdmin _ _ _ => true
  | _ => false

def isOpenAdminOkEv : Ev → Bool
  | .openAdmin _ _ ok => ok
  | _ => false

def isCreateFor (n : String) : Ev → Bool
  | .createDb db _ _ => db = n
  | _ => false

def isQueryExistsFor (n : String) : Ev → Bool
  | .queryExists db _ _ => db = n
  | _ => false

def isTargetFor (n : String) : Ev → Bool
  | .openTarget db _ _ => db = n
  | _ => false

/-- Number of events of a trace satisfying `p`. -/
def countP (p : Ev → Bool) (tr : List Ev) : Nat := (tr.filter p).length

/-- The log portion of a trace (what an observer of the logger sees). -/
def logsOf (tr : List Ev) : List Ev := tr.filter isLogEv

/-- Environment oracle.  The `k`-th `gorm.Open` succeeds iff `openOk k`; the
`k`-th SQL statement / query succeeds iff `execOk k`; a failing call `k`
produces driver error text `errText k`; pinging / extracting the handle `h`
behaves per `pingOk h` / `dbOk h`; the postgres existence query at call `k`
finds the database iff `existsFound k`. -/
structure Env where
  openOk : Nat → Bool
  execOk : Nat → Bool
  errText : Nat → String
  pingOk : Nat → Bool
  dbOk : Nat → Bool
  existsFound : Nat → Bool

/-- `databaseInner` of mysql/boot.go. -/
structure DatabaseInner where
  name : String
  dryRun : Bool
  autoCreate : Bool
  params : List String
deriving DecidableEq

/-- `MySqlEntry` of mysql/boot.go; `GormDbMap` maps a sub-database name to
its opened connection handle. -/
structure MySqlEntry where
  entryName : String
  user : String
  pass : String
  protocol : String
  addr : String
  innerDbList : List DatabaseInner
  gormDbMap : List (String × Nat)
deriving DecidableEq

/-- Admin DSN of mysql `connect`: `"%s:%s@%s(%s)/?%s"`. -/
def mysqlDsnAdmin (e : MySqlEntry) (sqlParams : String) : String :=
  e.user ++ ":" ++ e.pass ++ "@" ++ e.protocol ++ "(" ++ e.addr ++ ")/?" ++
    sqlParams

/-- Target DSN of mysql `connect`: `"%s:%s@%s(%s)/%s?%s"`. -/
def mysqlDsnTarget (e : MySqlEntry) (db sqlParams : String) : String :=
  e.user ++ ":" ++ e.pass ++ "@" ++ e.protocol ++ "(" ++ e.addr ++ ")/" ++
    db ++ "?" ++ sqlParams

def mysqlCreateSql (db : String) : String :=
  "CREATE DATABASE IF NOT EXISTS `" ++ db ++ "` CHARACTER SET utf8mb4;"

/-- The create-if-missing prelude of one iteration of mysql `connect`
(mysql/boot.go lines 369-394): performed only when `!dryRun && autoCreate`;
opens an admin connection without a database name, executes the idempotent
CREATE statement, and never closes the admin connection. -/
def mysqlProvision (e : MySqlEntry) (env : Env) (d : DatabaseInner)
    (sqlParams : String) (k : Nat) : List Ev × Nat × Option String :=
  if (!d.dryRun && d.autoCreate) then
    let evs₁ := [Ev.logInfo (some d.name) ("Creating database [" ++ d.name ++ "]"),
                 Ev.openAdmin d.name (mysqlDsnAdmin e sqlParams) (env.openOk k)]
    if env.openOk k then
      let evs₂ := evs₁ ++
        [Ev.createDb d.name (mysqlCreateSql d.name) (env.execOk (k + 1))]
      if env.execOk (k + 1) then
        (evs₂ ++ [Ev.logInfo (some d.name)
            ("Creating database [" ++ d.name ++ "] successs")], k + 2, none)
      else (evs₂, k + 2, some (env.errText (k + 1)))
    else (evs₁, k + 1, some (env.errText k))
  else ([], k, none)

/-- The loop of mysql `connect` (mysql/boot.go lines 363-409): for each
declared sub-database, run the create-if-missing prelude, then open the real
connection and store its handle in the map; abort on the first error. -/
def mysqlConnectLoop (e : MySqlEntry) (env : Env) :
    List DatabaseInner → Nat → List (String × Nat) →
    List Ev × List (String × Nat) × Option String
  | [], _, m => ([], m, none)
  | d :: rest, k, m =>
    let sqlParams := String.intercalate "&" d.params
    match mysqlProvision e env d sqlParams k with
    | (evs, _, some err) => (evs, m, some err)
    | (evs, k₁, none) =>
      let evs₂ := evs ++
        [Ev.logInfo (some d.name) ("Connecting to database [" ++ d.name ++ "]"),
         Ev.openTarget d.name (mysqlDsnTarget e d.name sqlParams) (env.openOk k₁)]
      if env.openOk k₁ then
        let res := mysqlConnectLoop e env rest (k₁ + 1) (m ++ [(d.name, k₁)])
        (evs₂ ++
          [Ev.logInfo (some d.name)
            ("Connecting to database [" ++ d.name ++ "] success")] ++ res.1,
         res.2)
      else (evs₂, m, some (env.errText k₁))

/-- mysql `connect`. -/
def mysqlConnect (e : MySqlEntry) (env : Env) :
    List Ev × List (String × Nat) × Option String :=
  mysqlConnectLoop e env e.innerDbList 0 e.gormDbMap

/-- Result of `Bootstrap`: either the updated entry, or process termination
via `rkentry.ShutdownWithError` with the given message. -/
inductive BootOutcome where
  | ok (e : MySqlEntry)
  | terminated (msg : String) (e : MySqlEntry)
deriving DecidableEq

/-- The `ShutdownWithError` message of mysql `Bootstrap` (mysql/boot.go line
294): the password is replaced by `"****"`. -/
def mysqlShutdownMsg (e : MySqlEntry) : String :=
  "failed to connect to database at " ++ e.user ++ ":" ++ "****" ++ "@" ++
    e.protocol ++ "(" ++ e.addr ++ ")"

/-- mysql `Bootstrap` (mysql/boot.go lines 274-297). -/
def mysqlBootstrap (e : MySqlEntry) (env : Env) : List Ev × BootOutcome :=
  let tr₀ := [Ev.logInfo none "Bootstrap MySqlEntry"]
  match mysqlConnect e env with
  | (tr, m, none) => (tr₀ ++ tr, BootOutcome.ok { e with gormDbMap := m })
  | (tr, m, some err) =>
      (tr₀ ++ tr ++ [Ev.logError "Failed to connect to database" (some err)],
       BootOutcome.terminated (mysqlShutdownMsg e) { e with gormDbMap := m })

/-- mysql `IsHealthy` (mysql/boot.go lines 343-355): ping every connection of
the map; true only if every handle extraction and ping succeeds. -/
def mysqlIsHealthy (e : MySqlEntry) (env : Env) : Bool :=
  e.gormDbMap.all (fun p => env.dbOk p.2 && env.pingOk p.2)

/-- mysql `Interrupt` (mysql/boot.go lines 300-315): it only logs; no
connection of the map is closed. -/
def mysqlInterrupt (_ : MySqlEntry) : List Ev :=
  [Ev.logInfo none "Interrupt MySqlEntry"]

/-- `databaseInner` of postgres/boot.go (rk-entry v2 variant). -/
structure PgDatabaseInner where
  name : String
  dryRun : Bool
  autoCreate : Bool
  preferSimpleProtocol : Bool
  maxIdleConn : Nat
  maxOpenConn : Nat
  params : List String
deriving DecidableEq

/-- `PostgresEntry` of postgres/boot.go (rk-entry v2 variant).  The Prom
plugin attachment is not modelled; it registers metrics only. -/
structure PgEntry where
  entryName : String
  user : String
  pass : String
  addr : String
  innerDbList : List PgDatabaseInner
  gormDbMap : List (String × Nat)
  healthCheckEnabled : Bool
  healthCheckIntervalMs : Nat
deriving DecidableEq

def pgCreateSql (db owner : String) : String :=
  "CREATE DATABASE \"" ++ db ++ "\" WITH OWNER " ++ owner ++ " ENCODING UTF8"

/-- The create-if-missing prelude of one iteration of postgres `connect`
(postgres/boot.go lines 942-983): opens a temporary admin connection to the
`postgres` database, queries `pg_database` for existence, creates the
database when absent, and closes the admin connection on every path reached
after a successful open (query failure, create failure, and success). -/
def pgProvision (e : PgEntry) (env : Env) (d : PgDatabaseInner)
    (params : List String) (k : Nat) : List Ev × Nat × Option String :=
  if (!d.dryRun && d.autoCreate) then
    let evs₁ := [Ev.logInfo (some d.name)
        ("Creating database [" ++ d.name ++ "] if not exists"),
      Ev.openAdmin d.name
        (String.intercalate " " (params ++ ["dbname=postgres"])) (env.openOk k)]
    if env.openOk k then
      let evs₂ := evs₁ ++
        [Ev.queryExists d.name (env.execOk (k + 1)) (env.existsFound (k + 1))]
      if env.execOk (k + 1) then
        if env.existsFound (k + 1) then
          (evs₂ ++ [Ev.closeConn d.name,
            Ev.logInfo (some d.name)
              ("Creating database [" ++ d.name ++ "] successs")], k + 2, none)
        else
          let evs₃ := evs₂ ++
            [Ev.logInfo (some d.name)
              ("Database:" ++ d.name ++ " not found, create with owner:" ++
                e.user ++ ", encoding:UTF8"),
             Ev.createDb d.name (pgCreateSql d.name e.user) (env.execOk (k + 2))]
          if env.execOk (k + 2) then
            (evs₃ ++ [Ev.closeConn d.name,
              Ev.logInfo (some d.name)
                ("Creating database [" ++ d.name ++ "] successs")], k + 3, none)
          else (evs₃ ++ [Ev.closeConn d.name], k + 3, some (env.errText (k + 2)))
      else (evs₂ ++ [Ev.closeConn d.name], k + 2, some (env.errText (k + 1)))
    else (evs₁, k + 1, some (env.errText k))
  else ([], k, none)

/-- The loop of postgres `connect` (postgres/boot.go lines 934-1022): run the
create-if-missing prelude, open the real connection, apply the pool tuning
knobs (each may fail when extracting the inner handle), then store the
handle; abort on the first error. -/
def pgConnectLoop (e : PgEntry) (env : Env) (dsnParams : List String) :
    List PgDatabaseInner → Nat → List (String × Nat) →
    List Ev × List (String × Nat) × Option String
  | [], _, m => ([], m, none)
  | d :: rest, k, m =>
    let params := dsnParams ++ d.params
    match pgProvision e env d params k with
    | (evs, _, some err) => (evs, m, some err)
    | (evs, k₁, none) =>
      let evs₂ := evs ++
        [Ev.logInfo (some d.name) ("Connecting to database [" ++ d.name ++ "]"),
         Ev.openTarget d.name
           (String.intercalate " " (params ++ ["dbname=" ++ d.name]))
           (env.openOk k₁)]
      if env.openOk k₁ then
        if 0 < d.maxOpenConn ∧ env.dbOk k₁ = false then
          (evs₂, m, some (env.errText k₁))
        else if 0 < d.maxIdleConn ∧ env.dbOk k₁ = false then
          (evs₂, m, some (env.errText k₁))
        else
          let res := pgConnectLoop e env dsnParams rest (k₁ + 1)
            (m ++ [(d.name, k₁)])
          (evs₂ ++
            [Ev.logInfo (some d.name)
              ("Connecting to database [" ++ d.name ++ "] success")] ++ res.1,
           res.2)
      else (evs₂, m, some (env.errText k₁))

/-- Modelled from the Go standard library: `strings.Split(s, ":")`, written
as structural recursion over the character list so that it evaluates by
kernel reduction. -/
def splitChars : List Char → List (List Char)
  | [] => [[]]
  | x :: xs =>
    match splitChars xs with
    | [] => [[]]
    | y :: ys => if x = ':' then [] :: y :: ys else (x :: y) :: ys

/-- `strings.Split(addr, ":")`. -/
def splitAddr (addr : String) : List String :=
  (splitChars addr.data).map (fun l => String.mk l)

/-- postgres `connect` (postgres/boot.go lines 918-1025): the address must be
`host:port`, then the loop runs with the base DSN parameters (which include
the password in plaintext — sent to the driver, never logged). -/
def pgConnect (e : PgEntry) (env : Env) :
    List Ev × List (String × Nat) × Option String :=
  match splitAddr e.addr with
  | [host, port] =>
    pgConnectLoop e env
      ["host=" ++ host, "port=" ++ port, "user=" ++ e.user,
       "password=" ++ e.pass]
      e.innerDbList 0 e.gormDbMap
  | _ => ([], e.gormDbMap,
      some "invalid address, should be format of localhost:9920")

/-- Result of postgres `Bootstrap`. -/
inductive PgBootOutcome where
  | ok (e : PgEntry)
  | terminated (msg : String) (e : PgEntry)
deriving DecidableEq

/-- The `ShutdownWithError` message of postgres `Bootstrap` (postgres/boot.go
line 787): user and address only, no password. -/
def pgShutdownMsg (e : PgEntry) : String :=
  "failed to connect to database at " ++ e.user ++ "@" ++ e.addr

/-- postgres `Bootstrap` (postgres/boot.go lines 767-809), connection phase.
The health-check goroutine it spawns is modelled separately by `hcRun`. -/
def pgBootstrap (e : PgEntry) (env : Env) : List Ev × PgBootOutcome :=
  let tr₀ := [Ev.logInfo none "Bootstrap postgresEntry"]
  match pgConnect e env with
  | (tr, m, none) => (tr₀ ++ tr, PgBootOutcome.ok { e with gormDbMap := m })
  | (tr, m, some err) =>
      (tr₀ ++ tr ++ [Ev.logError "Failed to connect to database" (some err)],
       PgBootOutcome.terminated (pgShutdownMsg e) { e with gormDbMap := m })

/-- postgres `Interrupt` (postgres/boot.go lines 812-833): close the quit
channel, close every connection of the map, then log. -/
def pgInterrupt (e : PgEntry) : List Ev :=
  Ev.quitClose :: (e.gormDbMap.map (fun p => Ev.closeConn p.1)) ++
    [Ev.logInfo none "Interrupt PostgresEntry"]

/-- `SqliteEntry` of sqlite/boot.go, restricted to the connection map. -/
structure SqliteEntry where
  entryName : String
  gormDbMap : List (String × Nat)
deriving DecidableEq

/-- sqlite `Interrupt` (sqlite/boot.go lines 335-354): close every connection
of the map, then log. -/
def sqliteInterrupt (e : SqliteEntry) : List Ev :=
  (e.gormDbMap.map (fun p => Ev.closeConn p.1)) ++
    [Ev.logInfo none "Interrupt SQLiteEntry"]

/-! ## The postgres background health-check goroutine

postgres/boot.go lines 791-808: the goroutine allocates a `time.Timer` for
one interval and loops over a `select` with three branches — the quit
channel (return), the timer channel (run `IsHealthy`, reset the timer), and
a `default` branch that sleeps 3 seconds.  `Interrupt` closes the quit
channel; the timer is never stopped.  Time is modelled in milliseconds; the
`choice` oracle resolves the `select` when both channels are ready (`true`
picks the quit branch). -/

structure HCState where
  time : Nat
  deadline : Nat
  done : Bool
  stopTime : Nat
deriving DecidableEq

/-- One iteration of the goroutine's `for { select { ... } }` loop. -/
def hcStep (interval quitAt : Nat) (choice : Nat → Bool) (i : Nat)
    (s : HCState) : HCState :=
  if s.done then s
  else
    let quitReady := quitAt ≤ s.time
    let timerReady := s.deadline ≤ s.time
    if quitReady ∧ timerReady then
      if choice i then { s with done := true, stopTime := s.time }
      else { s with deadline := s.time + interval }
    else if quitReady then { s with done := true, stopTime := s.time }
    else if timerReady then { s with deadline := s.time + interval }
    else { s with time := s.time + 3000 }

/-- Run `n` iterations of the loop, numbering iterations from `i`. -/
def hcRun (interval quitAt : Nat) (choice : Nat → Bool) :
    Nat → Nat → HCState → HCState
  | 0, _, s => s
  | n + 1, i, s =>
      hcRun interval quitAt choice n (i + 1) (hcStep interval quitAt choice i s)

/-- Initial state: the timer is armed for one interval; the loop has not
terminated. -/
def hcInit (interval : Nat) : HCState :=
  { time := 0, deadline := interval, done := false, stopTime := 0 }

/-! ## The redis entry -/

/-- Modelled from go-redis (external dependency): the dynamic type of the
client `redis.NewUniversalClient` returns — a failover `*redis.Client` when
`MasterName` is set, a `*redis.ClusterClient` when more than one address is
configured, else a plain `*redis.Client`. -/
inductive RedisClient where
  | simple (addrs : List String) (master : Option String)
  | clusterClient (addrs : List String)
deriving DecidableEq

/-- Modelled from go-redis (external dependency): dispatch of
`redis.NewUniversalClient`. -/
def newUniversalClient (masterName : String) (addrs : List String) :
    RedisClient :=
  if masterName ≠ "" then .simple addrs (some masterName)
  else if 1 < addrs.length then .clusterClient addrs
  else .simple addrs none

/-- `RedisEntry` of redis/boot.go, restricted to the fields the lifecycle
reads: `Opts.MasterName`, `Opts.Addrs`, `ClientType`, `Client`. -/
structure RedisEntry where
  entryName : String
  clientType : String
  masterName : String
  addrs : List String
  client : Option RedisClient
deriving DecidableEq

/-- redis `Bootstrap` (redis/boot.go lines 240-267), TLS disabled: set
`ClientType` from the options, then build the universal client. -/
def redisBootstrap (e : RedisEntry) : RedisEntry :=
  let ct := if e.masterName ≠ "" then "HA"
    else if 1 < e.addrs.length then "Cluster"
    else "Single"
  { e with clientType := ct,
           client := some (newUniversalClient e.masterName e.addrs) }

/-- redis `GetClient` (redis/boot.go lines 309-317): non-nil only when the
client exists, the type tag is HA or Single, and the dynamic type assertion
to `*redis.Client` succeeds. -/
def redisGetClient (e : RedisEntry) : Option RedisClient :=
  match e.client with
  | some c =>
    if e.clientType = "HA" ∨ e.clientType = "Single" then
      match c with
      | .simple _ _ => some c
      | .clusterClient _ => none
    else none
  | none => none

/-- redis `GetClientCluster` (redis/boot.go lines 320-328). -/
def redisGetClientCluster (e : RedisEntry) : Option RedisClient :=
  match e.client with
  | some c =>
    if e.clientType = "Cluster" then
      match c with
      | .simple _ _ => none
      | .clusterClient _ => some c
    else none
  | none => none

/-! ## Concrete instances used by counterexamples and witnesses -/

def envAllOk : Env :=
  { openOk := fun _ => true, execOk := fun _ => true,
    errText := fun _ => "dial tcp: connection refused",
    pingOk := fun _ => true, dbOk := fun _ => true,
    existsFound := fun _ => false }

def envPingFail : Env :=
  { envAllOk with pingOk := fun _ => false }

/-- Fails the second `gorm.Open` call. -/
def envFailSecondOpen : Env :=
  { envAllOk with openOk := fun k => k = 0 }

def dbDry : DatabaseInner :=
  { name := "dry-db", dryRun := true, autoCreate := false, params := [] }

def dbUsers : DatabaseInner :=
  { name := "users", dryRun := false, autoCreate := false, params := [] }

def dbOrders : DatabaseInner :=
  { name := "orders", dryRun := false, autoCreate := false, params := [] }

def dbAuto : DatabaseInner :=
  { name := "reports", dryRun := false, autoCreate := true, params := [] }

def mysqlDryEntry : MySqlEntry :=
  { entryName := "m-dry", user := "root", pass := "pw", protocol := "tcp",
    addr := "localhost:3306", innerDbList := [dbDry], gormDbMap := [] }

def mysqlEntAuto : MySqlEntry :=
  { entryName := "m-auto", user := "root", pass := "pw", protocol := "tcp",
    addr := "localhost:3306", innerDbList := [dbAuto], gormDbMap := [] }

def mysqlEnt2 : MySqlEntry :=
  { entryName := "m-two", user := "root", pass := "pw", protocol := "tcp",
    addr := "localhost:3306", innerDbList := [dbUsers, dbOrders],
    gormDbMap := [] }

/-- The entry produced by a successful Bootstrap of `mysqlDryEntry`. -/
def mysqlDryBooted : MySqlEntry :=
  { mysqlDryEntry with gormDbMap := [("dry-db", 0)] }

/-! ## C10 — redis client dispatch -/

/-- C10: redis `Bootstrap` sets `ClientType` to HA when `MasterName` is
non-empty, else Cluster when more than one address is configured, else
Single; after Bootstrap, `GetClient` succeeds exactly when the type tag is HA
or Single and `GetClientCluster` exactly when it is Cluster, so at most one
of the two accessors returns a non-nil client. -/
theorem C10_redis_client_dispatch (e : RedisEntry) :
    ((redisBootstrap e).clientType =
      (if e.masterName ≠ "" then "HA"
       else if 1 < e.addrs.length then "Cluster" else "Single")) ∧
    ((redisGetClient (redisBootstrap e)).isSome =
      ((redisBootstrap e).clientType = "HA" ∨
        (redisBootstrap e).clientType = "Single" : Bool)) ∧
    ((redisGetClientCluster (redisBootstrap e)).isSome =
      ((redisBootstrap e).clientType = "Cluster" : Bool)) ∧
    ((redisGetClient (redisBootstrap e)).isSome = false ∨
      (redisGetClientCluster (redisBootstrap e)).isSome = false) := by
  by_cases hm : e.masterName = ""
  · by_cases ha : 1 < e.addrs.length
    · simp [redisBootstrap, newUniversalClient, redisGetClient,
        redisGetClientCluster, hm, ha]
    · simp [redisBootstrap, newUniversalClient, redisGetClient,
        redisGetClientCluster, hm, ha]
  · simp [redisBootstrap, newUniversalClient, redisGetClient,
      redisGetClientCluster, hm]

/-! ## C2 — dry-run behaviour -/

lemma mysqlProvision_dry {e : MySqlEntry} {env : Env} {d : DatabaseInner}
    {sqlParams : String} {k : Nat} (h : d.dryRun = true) :
    mysqlProvision e env d sqlParams k = ([], k, none) := by
  unfold mysqlProvision
  simp [h]

lemma countP_append (p : Ev → Bool) (a b : List Ev) :
    countP p (a ++ b) = countP p a + countP p b := by
  simp [countP, List.filter_append]

lemma mysqlConnectLoop_dry (e : MySqlEntry) (env : Env) :
    ∀ (ds : List DatabaseInner) (k : Nat) (m : List (String × Nat)),
      (∀ d ∈ ds, d.dryRun = true) →
      countP isOpenAdminEv (mysqlConnectLoop e env ds k m).1 = 0 ∧
      (∀ n, countP (isCreateFor n) (mysqlConnectLoop e env ds k m).1 = 0) ∧
      ((mysqlConnectLoop e env ds k m).2.2 = none →
        (mysqlConnectLoop e env ds k m).2.1.map Prod.fst =
          m.map Prod.fst ++ ds.map DatabaseInner.name) := by
  intro ds
  induction ds with
  | nil =>
    intro k m _
    simp [mysqlConnectLoop, countP]
  | cons d rest ih =>
    intro k m hdry
    have hd : d.dryRun = true := hdry d (List.mem_cons_self d rest)
    have hrest : ∀ d' ∈ rest, d'.dryRun = true :=
      fun d' h' => hdry d' (List.mem_cons_of_mem d h')
    simp only [mysqlConnectLoop, mysqlProvision_dry hd]
    cases hok : env.openOk k with
    | true =>
      obtain ⟨ih1, ih2, ih3⟩ := ih (k + 1) (m ++ [(d.name, k)]) hrest
      simp only [hok, if_true, List.nil_append]
      refine ⟨?_, ?_, ?_⟩
      · simp only [countP_append, ih1]
        simp [countP, isOpenAdminEv]
      · intro n
        simp only [countP_append, ih2 n]
        simp [countP, isCreateFor]
      · intro hnone
        have := ih3 hnone
        simp only [this]
        simp
    | false =>
      simp only [hok, Bool.false_eq_true, if_false, List.nil_append]
      refine ⟨?_, ?_, ?_⟩
      · simp [countP, isOpenAdminEv]
      · intro n
        simp [countP, isCreateFor]
      · intro hnone
        simp at hnone

/-- C2 counterexample: a sub-database with `dryRun=true` (and no
auto-create).  Bootstrap still opens a real connection for it — `connect`
calls `gorm.Open` with the real DSN, recorded as an `openTarget` event — and
after the successful Bootstrap, `IsHealthy` pings that connection and
returns false when the ping fails, so it is not unconditionally true. -/
theorem C2_counterexample :
    dbDry.dryRun = true ∧
    countP (isTargetFor "dry-db") (mysqlConnect mysqlDryEntry envAllOk).1 = 1 ∧
    (mysqlBootstrap mysqlDryEntry envAllOk).2 = BootOutcome.ok mysqlDryBooted ∧
    mysqlIsHealthy mysqlDryBooted envPingFail = false := by
  decide

/-- C2 (amended): `dryRun=true` skips only the create-if-missing prelude —
for an entry whose sub-databases are all dry-run, `connect` performs no admin
open and no CREATE statement — but still opens one real connection per
sub-database (gorm's DryRun flag only suppresses statement execution), and
`IsHealthy` returns true iff every stored connection's handle extraction and
ping succeed, not unconditionally. -/
theorem C2_dry_run_behaviour (e : MySqlEntry) (env : Env)
    (hdry : ∀ d ∈ e.innerDbList, d.dryRun = true) :
    countP isOpenAdminEv (mysqlConnect e env).1 = 0 ∧
    (∀ n, countP (isCreateFor n) (mysqlConnect e env).1 = 0) ∧
    ((mysqlConnect e env).2.2 = none →
      (mysqlConnect e env).2.1.map Prod.fst =
        e.gormDbMap.map Prod.fst ++ e.innerDbList.map DatabaseInner.name) ∧
    (mysqlIsHealthy e env = true ↔
      ∀ p ∈ e.gormDbMap, env.dbOk p.2 = true ∧ env.pingOk p.2 = true) := by
  obtain ⟨h1, h2, h3⟩ :=
    mysqlConnectLoop_dry e env e.innerDbList 0 e.gormDbMap hdry
  refine ⟨h1, h2, h3, ?_⟩
  simp [mysqlIsHealthy, List.all_eq_true]

theorem C2_dry_run_behaviour_witness :
    (∀ d ∈ mysqlDryEntry.innerDbList, d.dryRun = true) ∧
    (countP isOpenAdminEv (mysqlConnect mysqlDryEntry envAllOk).1 = 0 ∧
     (∀ n, countP (isCreateFor n) (mysqlConnect mysqlDryEntry envAllOk).1 = 0) ∧
     ((mysqlConnect mysqlDryEntry envAllOk).2.2 = none →
       (mysqlConnect mysqlDryEntry envAllOk).2.1.map Prod.fst =
         mysqlDryEntry.gormDbMap.map Prod.fst ++
           mysqlDryEntry.innerDbList.map DatabaseInner.name) ∧
     (mysqlIsHealthy mysqlDryEntry envAllOk = true ↔
       ∀ p ∈ mysqlDryEntry.gormDbMap,
         envAllOk.dbOk p.2 = true ∧ envAllOk.pingOk p.2 = true)) :=
  ⟨by decide, C2_dry_run_behaviour mysqlDryEntry envAllOk (by decide)⟩

/-! ## C7 — Interrupt and open connections -/

/-- C7 counterexample: a Bootstrapped mysql entry with a non-empty connection
map; its `Interrupt` closes nothing (it only logs), so not every open
connection is closed before the call returns. -/
theorem C7_counterexample :
    (mysqlBootstrap mysqlDryEntry envAllOk).2 = BootOutcome.ok mysqlDryBooted ∧
    mysqlDryBooted.gormDbMap ≠ [] ∧
    countP isCloseEv (mysqlInterrupt mysqlDryBooted) = 0 := by
  decide

/-- C7 (amended): the postgres and sqlite `Interrupt` close every connection
held in the entry's map before returning; the mysql `Interrupt` closes none
of them (it only logs). -/
theorem C7_interrupt_close :
    (∀ (pe : PgEntry) (p : String × Nat), p ∈ pe.gormDbMap →
      Ev.closeConn p.1 ∈ pgInterrupt pe) ∧
    (∀ (se : SqliteEntry) (p : String × Nat), p ∈ se.gormDbMap →
      Ev.closeConn p.1 ∈ sqliteInterrupt se) ∧
    (∀ me : MySqlEntry, countP isCloseEv (mysqlInterrupt me) = 0) := by
  refine ⟨?_, ?_, ?_⟩
  · intro pe p hp
    unfold pgInterrupt
    exact List.mem_cons_of_mem _
      (List.mem_append_left _ (List.mem_map.mpr ⟨p, hp, rfl⟩))
  · intro se p hp
    unfold sqliteInterrupt
    exact List.mem_append_left _ (List.mem_map.mpr ⟨p, hp, rfl⟩)
  · intro me
    simp [mysqlInterrupt, countP, isCloseEv]

theorem C7_interrupt_close_witness :
    (("users", 0) ∈ (PgEntry.mk "p" "postgres" "pw" "localhost:5432" []
        [("users", 0)] false 0).gormDbMap ∧
      Ev.closeConn "users" ∈ pgInterrupt (PgEntry.mk "p" "postgres" "pw"
        "localhost:5432" [] [("users", 0)] false 0)) ∧
    (("users", 0) ∈ (SqliteEntry.mk "s" [("users", 0)]).gormDbMap ∧
      Ev.closeConn "users" ∈ sqliteInterrupt (SqliteEntry.mk "s" [("users", 0)])) :=
  ⟨⟨by decide,
    C7_interrupt_close.1 (PgEntry.mk "p" "postgres" "pw" "localhost:5432" []
      [("users", 0)] false 0) ("users", 0) (by decide)⟩,
   ⟨by decide,
    C7_interrupt_close.2.1 (SqliteEntry.mk "s" [("users", 0)]) ("users", 0)
      (by decide)⟩⟩

/-! ## C8 — termination of the health-check task -/

/-- C8 counterexample.  First run: interval 1000 ms, quit signalled at
t = 1 ms, `select` resolved in favour of quit whenever both channels are
ready.  The loop is asleep in the `default` branch (3-second sleep), so the
task only terminates at t = 3000 ms, which is later than one tick interval
(1001 ms) after the signal.  Second run: interval 5000 ms, quit signalled at
t = 0; the task returns at t = 0 with the timer still armed for t = 5000 —
the timer is never stopped, so it remains active after termination. -/
theorem C8_counterexample :
    ((hcRun 1000 1 (fun _ => true) 2 0 (hcInit 1000)).done = true ∧
     (hcRun 1000 1 (fun _ => true) 2 0 (hcInit 1000)).stopTime = 3000 ∧
     1 + 1000 < 3000) ∧
    ((hcRun 5000 0 (fun _ => true) 1 0 (hcInit 5000)).done = true ∧
     (hcRun 5000 0 (fun _ => true) 1 0 (hcInit 5000)).stopTime = 0 ∧
     (hcRun 5000 0 (fun _ => true) 1 0 (hcInit 5000)).stopTime <
       (hcRun 5000 0 (fun _ => true) 1 0 (hcInit 5000)).deadline) := by
  decide

lemma hcRun_succ (interval quitAt : Nat) (choice : Nat → Bool) (n i : Nat)
    (s : HCState) :
    hcRun interval quitAt choice (n + 1) i s =
      hcRun interval quitAt choice n (i + 1)
        (hcStep interval quitAt choice i s) := rfl

lemma hcStep_quit_only {interval quitAt : Nat} {choice : Nat → Bool} {i : Nat}
    {s : HCState} (hdone : s.done = false) (hq : quitAt ≤ s.time)
    (ht : ¬s.deadline ≤ s.time) :
    hcStep interval quitAt choice i s =
      ⟨s.time, s.deadline, true, s.time⟩ := by
  obtain ⟨t, dl, dn, st⟩ := s
  simp only at hdone hq ht ⊢
  subst hdone
  simp only [hcStep]
  rw [if_neg (by simp), if_neg (by tauto), if_pos hq]

lemma hcStep_both {interval quitAt : Nat} {choice : Nat → Bool} {i : Nat}
    {s : HCState} (hdone : s.done = false) (hq : quitAt ≤ s.time)
    (ht : s.deadline ≤ s.time) :
    hcStep interval quitAt choice i s =
      (if choice i then ⟨s.time, s.deadline, true, s.time⟩
       else ⟨s.time, s.time + interval, false, s.stopTime⟩) := by
  obtain ⟨t, dl, dn, st⟩ := s
  simp only at hdone hq ht ⊢
  subst hdone
  simp only [hcStep]
  rw [if_neg (by simp), if_pos ⟨hq, ht⟩]

lemma hcStep_timer_only {interval quitAt : Nat} {choice : Nat → Bool} {i : Nat}
    {s : HCState} (hdone : s.done = false) (hq : ¬quitAt ≤ s.time)
    (ht : s.deadline ≤ s.time) :
    hcStep interval quitAt choice i s =
      ⟨s.time, s.time + interval, false, s.stopTime⟩ := by
  obtain ⟨t, dl, dn, st⟩ := s
  simp only at hdone hq ht ⊢
  subst hdone
  simp only [hcStep]
  rw [if_neg (by simp), if_neg (by tauto), if_neg hq, if_pos ht]

lemma hcStep_default {interval quitAt : Nat} {choice : Nat → Bool} {i : Nat}
    {s : HCState} (hdone : s.done = false) (hq : ¬quitAt ≤ s.time)
    (ht : ¬s.deadline ≤ s.time) :
    hcStep interval quitAt choice i s =
      ⟨s.time + 3000, s.deadline, false, s.stopTime⟩ := by
  obtain ⟨t, dl, dn, st⟩ := s
  simp only at hdone hq ht ⊢
  subst hdone
  simp only [hcStep]
  rw [if_neg (by simp), if_neg (by tauto), if_neg hq, if_neg ht]

/-- Once the quit channel is ready, the loop returns within at most two
iterations (one possible timer branch, then the quit branch), without
advancing time. -/
lemma hc_done_in_two (interval quitAt : Nat) (choice : Nat → Bool)
    (hpos : 0 < interval) (s : HCState) (i : Nat)
    (hdone : s.done = false) (hq : quitAt ≤ s.time) :
    ∃ n, (hcRun interval quitAt choice n i s).done = true ∧
      (hcRun interval quitAt choice n i s).stopTime = s.time := by
  by_cases ht : s.deadline ≤ s.time
  · cases hc : choice i with
    | true =>
      refine ⟨1, ?_⟩
      rw [hcRun_succ, hcStep_both hdone hq ht, hc, if_pos rfl]
      exact ⟨rfl, rfl⟩
    | false =>
      refine ⟨2, ?_⟩
      rw [hcRun_succ, hcStep_both hdone hq ht, hc, if_neg (by simp),
        hcRun_succ,
        hcStep_quit_only (s := ⟨s.time, s.time + interval, false, s.stopTime⟩)
          rfl hq (by show ¬(s.time + interval ≤ s.time); omega)]
      exact ⟨rfl, rfl⟩
  · refine ⟨1, ?_⟩
    rw [hcRun_succ, hcStep_quit_only hdone hq ht]
    exact ⟨rfl, rfl⟩

/-- From any live state the loop reaches `done` with stop time below
`quitAt + 3000`, provided enough default-branch sleeps remain to pass the
signal time. -/
lemma hc_reaches_done (interval quitAt : Nat) (choice : Nat → Bool)
    (hpos : 0 < interval) :
    ∀ (fuel : Nat) (s : HCState) (i : Nat),
      s.done = false → s.time < quitAt + 3000 →
      quitAt ≤ s.time + 3000 * fuel →
      ∃ n, (hcRun interval quitAt choice n i s).done = true ∧
        (hcRun interval quitAt choice n i s).stopTime < quitAt + 3000 := by
  intro fuel
  induction fuel with
  | zero =>
    intro s i hdone htime hq
    obtain ⟨n, h1, h2⟩ :=
      hc_done_in_two interval quitAt choice hpos s i hdone (by omega)
    exact ⟨n, h1, by omega⟩
  | succ f ihf =>
    intro s i hdone htime hq
    by_cases hquit : quitAt ≤ s.time
    · obtain ⟨n, h1, h2⟩ :=
        hc_done_in_two interval quitAt choice hpos s i hdone hquit
      exact ⟨n, h1, by omega⟩
    · by_cases ht : s.deadline ≤ s.time
      · -- timer branch (no time advance), then the default branch sleeps
        obtain ⟨n, hn⟩ := ihf ⟨s.time + 3000, s.time + interval, false,
            s.stopTime⟩ (i + 2) rfl
          (by show s.time + 3000 < quitAt + 3000; omega)
          (by show quitAt ≤ s.time + 3000 + 3000 * f; omega)
        refine ⟨n + 2, ?_⟩
        rw [hcRun_succ, hcStep_timer_only hdone hquit ht, hcRun_succ,
          hcStep_default (s := ⟨s.time, s.time + interval, false, s.stopTime⟩)
            rfl (by show ¬quitAt ≤ s.time; exact hquit)
            (by show ¬(s.time + interval ≤ s.time); omega)]
        exact hn
      · obtain ⟨n, hn⟩ := ihf ⟨s.time + 3000, s.deadline, false, s.stopTime⟩
          (i + 1) rfl
          (by show s.time + 3000 < quitAt + 3000; omega)
          (by show quitAt ≤ s.time + 3000 + 3000 * f; omega)
        refine ⟨n + 1, ?_⟩
        rw [hcRun_succ, hcStep_default hdone hquit ht]
        exact hn

/-- C8 (amended): after the quit signal the health-check task does terminate,
and its stop time is below `signal time + 3000 ms` — the 3-second sleep of
the `select`'s default branch, not one tick interval, bounds the delay (the
counterexample shows the one-tick bound fails, and that the timer can remain
armed past termination). -/
theorem C8_healthcheck_stop (interval quitAt : Nat) (choice : Nat → Bool)
    (hpos : 0 < interval) :
    ∃ n, (hcRun interval quitAt choice n 0 (hcInit interval)).done = true ∧
      (hcRun interval quitAt choice n 0 (hcInit interval)).stopTime <
        quitAt + 3000 := by
  refine hc_reaches_done interval quitAt choice hpos quitAt (hcInit interval) 0
    rfl (by show 0 < quitAt + 3000; omega) ?_
  show quitAt ≤ 0 + 3000 * quitAt
  omega

theorem C8_healthcheck_stop_witness :
    0 < 1000 ∧
    ∃ n, (hcRun 1000 1 (fun _ => true) n 0 (hcInit 1000)).done = true ∧
      (hcRun 1000 1 (fun _ => true) n 0 (hcInit 1000)).stopTime < 1 + 3000 :=
  ⟨by decide, C8_healthcheck_stop 1000 1 (fun _ => true) (by decide)⟩

/-! ## C5 — closing the temporary administrative connection -/

lemma mysqlProvision_no_close (e : MySqlEntry) (env : Env) (d : DatabaseInner)
    (sp : String) (k : Nat) :
    countP isCloseEv (mysqlProvision e env d sp k).1 = 0 := by
  unfold mysqlProvision
  repeat' split
  all_goals simp [countP, countP_append, isCloseEv]

lemma mysqlLoop_no_close (e : MySqlEntry) (env : Env) :
    ∀ (ds : List DatabaseInner) (k : Nat) (m : List (String × Nat)),
      countP isCloseEv (mysqlConnectLoop e env ds k m).1 = 0 := by
  intro ds
  induction ds with
  | nil =>
    intro k m
    simp [mysqlConnectLoop, countP]
  | cons d rest ih =>
    intro k m
    have hp := mysqlProvision_no_close e env d (String.intercalate "&" d.params) k
    rcases hprov : mysqlProvision e env d (String.intercalate "&" d.params) k
      with ⟨evs, k', r⟩
    rw [hprov] at hp
    cases r with
    | some err =>
      simp only [mysqlConnectLoop, hprov]
      exact hp
    | none =>
      have hp' : countP isCloseEv evs = 0 := hp
      simp only [mysqlConnectLoop, hprov]
      cases hok : env.openOk k' with
      | true =>
        simp only [hok, if_true, countP_append]
        rw [hp', ih]
        simp [countP, isCloseEv]
      | false =>
        simp only [hok, Bool.false_eq_true, if_false, countP_append]
        rw [hp']
        simp [countP, isCloseEv]

lemma pgProvision_close_balance (e : PgEntry) (env : Env)
    (d : PgDatabaseInner) (params : List String) (k : Nat) :
    countP isCloseEv (pgProvision e env d params k).1 =
      countP isOpenAdminOkEv (pgProvision e env d params k).1 := by
  unfold pgProvision
  repeat' split
  all_goals
    simp_all [countP, countP_append, isCloseEv, isOpenAdminOkEv,
      Bool.not_eq_true]

lemma pgLoop_close_balance (e : PgEntry) (env : Env) (dsnParams : List String) :
    ∀ (ds : List PgDatabaseInner) (k : Nat) (m : List (String × Nat)),
      countP isCloseEv (pgConnectLoop e env dsnParams ds k m).1 =
        countP isOpenAdminOkEv (pgConnectLoop e env dsnParams ds k m).1 := by
  intro ds
  induction ds with
  | nil =>
    intro k m
    simp [pgConnectLoop, countP]
  | cons d rest ih =>
    intro k m
    have hp := pgProvision_close_balance e env d (dsnParams ++ d.params) k
    rcases hprov : pgProvision e env d (dsnParams ++ d.params) k
      with ⟨evs, k', r⟩
    rw [hprov] at hp
    cases r with
    | some err =>
      simp only [pgConnectLoop, hprov]
      exact hp
    | none =>
      have hp' : countP isCloseEv evs = countP isOpenAdminOkEv evs := hp
      simp only [pgConnectLoop, hprov]
      cases hok : env.openOk k' with
      | true =>
        simp only [hok, if_true]
        split
        · simp only [countP_append]
          rw [hp']
          simp [countP, isCloseEv, isOpenAdminOkEv]
        · split
          · simp only [countP_append]
            rw [hp']
            simp [countP, isCloseEv, isOpenAdminOkEv]
          · simp only [countP_append]
            rw [hp', ih]
            simp [countP, isCloseEv, isOpenAdminOkEv]
      | false =>
        simp only [hok, Bool.false_eq_true, if_false, countP_append]
        rw [hp']
        simp [countP, isCloseEv, isOpenAdminOkEv]

/-- C5 counterexample: a mysql entry with one auto-created sub-database, all
I/O succeeding.  Provisioning opens one admin connection (the successful
`openAdmin` event), and the whole of `connect` emits no close event — the
admin connection is never closed, neither before provisioning finishes nor
afterwards. -/
theorem C5_counterexample :
    countP isOpenAdminOkEv (mysqlConnect mysqlEntAuto envAllOk).1 = 1 ∧
    countP isCloseEv (mysqlConnect mysqlEntAuto envAllOk).1 = 0 := by
  decide

/-- C5 (amended): in the postgres implementation every successfully opened
temporary admin connection is matched by exactly one close, both within each
provisioning step in isolation (success and every failure path) and across
the whole of `connect`; in the mysql implementation the admin connection is
never closed (no close event is ever emitted by `connect`). -/
theorem C5_admin_connection_close :
    (∀ (e : PgEntry) (env : Env) (d : PgDatabaseInner) (params : List String)
      (k : Nat),
      countP isCloseEv (pgProvision e env d params k).1 =
        countP isOpenAdminOkEv (pgProvision e env d params k).1) ∧
    (∀ (e : PgEntry) (env : Env),
      countP isCloseEv (pgConnect e env).1 =
        countP isOpenAdminOkEv (pgConnect e env).1) ∧
    (∀ (e : MySqlEntry) (env : Env),
      countP isCloseEv (mysqlConnect e env).1 = 0) := by
  refine ⟨pgProvision_close_balance, ?_, ?_⟩
  · intro e env
    cases h : splitAddr e.addr with
    | nil => simp [pgConnect, h, countP]
    | cons host tl =>
      cases tl with
      | nil => simp [pgConnect, h, countP]
      | cons port tl2 =>
        cases tl2 with
        | nil =>
          simp only [pgConnect, h]
          exact pgLoop_close_balance e env _ e.innerDbList 0 e.gormDbMap
        | cons x tl3 => simp [pgConnect, h, countP]
  · intro e env
    exact mysqlLoop_no_close e env e.innerDbList 0 e.gormDbMap

/-! ## C4 — create-if-missing happens once, before the first connection -/

/-- In every prefix of the trace, a `isT` event is preceded by a `isC`
event. -/
def CreateBeforeTarget (isC isT : Ev → Bool) (tr : List Ev) : Prop :=
  ∀ n, (tr.take n).any isT = true → (tr.take n).any isC = true

lemma any_of_any_take {p : Ev → Bool} {l : List Ev} {n : Nat}
    (h : (l.take n).any p = true) : l.any p = true := by
  rcases List.any_eq_true.mp h with ⟨x, hx, hpx⟩
  exact List.any_eq_true.mpr ⟨x, List.mem_of_mem_take hx, hpx⟩

lemma cbt_of_no_target {isC isT : Ev → Bool} {tr : List Ev}
    (h : tr.any isT = false) : CreateBeforeTarget isC isT tr := by
  intro n hT
  have := any_of_any_take hT
  rw [h] at this
  cases this

lemma cbt_append_left {isC isT : Ev → Bool} {tr₁ tr₂ : List Ev}
    (h₁ : CreateBeforeTarget isC isT tr₁)
    (h : tr₂.any isT = false ∨ tr₁.any isC = true) :
    CreateBeforeTarget isC isT (tr₁ ++ tr₂) := by
  intro n hT
  rw [List.take_append_eq_append_take, List.any_append] at hT ⊢
  rcases (Bool.or_eq_true _ _).mp hT with h1 | h2
  · exact (Bool.or_eq_true _ _).mpr (Or.inl (h₁ n h1))
  · have hlen : tr₁.length < n := by
      by_contra hle
      push_neg at hle
      have hz : n - tr₁.length = 0 := by omega
      rw [hz] at h2
      simp at h2
    rcases h with hT2 | hC1
    · exfalso
      have := any_of_any_take h2
      rw [hT2] at this
      cases this
    · refine (Bool.or_eq_true _ _).mpr (Or.inl ?_)
      rw [List.take_of_length_le (by omega)]
      exact hC1

lemma cbt_append_right {isC isT : Ev → Bool} {tr₁ tr₂ : List Ev}
    (h₁ : tr₁.any isT = false) (h₂ : CreateBeforeTarget isC isT tr₂) :
    CreateBeforeTarget isC isT (tr₁ ++ tr₂) := by
  intro n hT
  rw [List.take_append_eq_append_take, List.any_append] at hT ⊢
  rcases (Bool.or_eq_true _ _).mp hT with h1 | h2
  · exfalso
    have := any_of_any_take h1
    rw [h₁] at this
    cases this
  · exact (Bool.or_eq_true _ _).mpr (Or.inr (h₂ _ h2))

/-- In the success case the create-if-missing prelude of a non-dry,
auto-created sub-database is exactly: announce, open the admin connection,
issue the idempotent CREATE, announce success. -/
lemma mysqlProvision_char {e : MySqlEntry} {env : Env} {d : DatabaseInner}
    {sp : String} {k : Nat} (hdry : d.dryRun = false) (hac : d.autoCreate = true) :
    (mysqlProvision e env d sp k).2.2 = none →
    (mysqlProvision e env d sp k).1 =
      [Ev.logInfo (some d.name) ("Creating database [" ++ d.name ++ "]"),
       Ev.openAdmin d.name (mysqlDsnAdmin e sp) true,
       Ev.createDb d.name (mysqlCreateSql d.name) true,
       Ev.logInfo (some d.name)
         ("Creating database [" ++ d.name ++ "] successs")] := by
  unfold mysqlProvision
  simp only [hdry, hac, Bool.not_false, Bool.and_self, if_true]
  cases h1 : env.openOk k <;> cases h2 : env.execOk (k + 1) <;> simp [h1, h2]

lemma mysqlProvision_other_name {e : MySqlEntry} {env : Env}
    {d : DatabaseInner} {sp : String} {k : Nat} {nm : String}
    (hne : d.name ≠ nm) :
    countP (isCreateFor nm) (mysqlProvision e env d sp k).1 = 0 ∧
    (mysqlProvision e env d sp k).1.any (isTargetFor nm) = false := by
  unfold mysqlProvision
  repeat' split
  all_goals simp [countP, isCreateFor, isTargetFor, hne]

lemma mysqlLoop_other_names (e : MySqlEntry) (env : Env) (nm : String) :
    ∀ (ds : List DatabaseInner) (k : Nat) (m : List (String × Nat)),
      nm ∉ ds.map DatabaseInner.name →
      countP (isCreateFor nm) (mysqlConnectLoop e env ds k m).1 = 0 ∧
      (mysqlConnectLoop e env ds k m).1.any (isTargetFor nm) = false := by
  intro ds
  induction ds with
  | nil =>
    intro k m _
    simp [mysqlConnectLoop, countP]
  | cons d rest ih =>
    intro k m hnm
    have hne : d.name ≠ nm := by
      intro h
      exact hnm (by simp [h])
    have hrest : nm ∉ rest.map DatabaseInner.name := by
      intro h
      exact hnm (by simp [h])
    obtain ⟨hc, ht⟩ :=
      @mysqlProvision_other_name e env d (String.intercalate "&" d.params) k
        nm hne
    rcases hprov : mysqlProvision e env d (String.intercalate "&" d.params) k
      with ⟨evs, k', r⟩
    rw [hprov] at hc ht
    cases r with
    | some err =>
      simp only [mysqlConnectLoop, hprov]
      exact ⟨hc, ht⟩
    | none =>
      simp only [mysqlConnectLoop, hprov]
      cases hok : env.openOk k' with
      | true =>
        obtain ⟨ihc, iht⟩ := ih (k' + 1) (m ++ [(d.name, k')]) hrest
        simp only [hok, if_true, countP_append, List.any_append]
        rw [hc, ihc, ht, iht]
        simp [countP, isCreateFor, isTargetFor, hne]
      | false =>
        simp only [hok, Bool.false_eq_true, if_false, countP_append,
          List.any_append]
        rw [hc, ht]
        simp [countP, isCreateFor, isTargetFor, hne]

lemma mysqlLoop_create_spec (e : MySqlEntry) (env : Env) (d : DatabaseInner)
    (hdry : d.dryRun = false) (hac : d.autoCreate = true) :
    ∀ (ds : List DatabaseInner) (k : Nat) (m : List (String × Nat)),
      (ds.map DatabaseInner.name).Nodup → d ∈ ds →
      (mysqlConnectLoop e env ds k m).2.2 = none →
      countP (isCreateFor d.name) (mysqlConnectLoop e env ds k m).1 = 1 ∧
      CreateBeforeTarget (isCreateFor d.name) (isTargetFor d.name)
        (mysqlConnectLoop e env ds k m).1 := by
  intro ds
  induction ds with
  | nil =>
    intro k m _ hmem
    cases hmem
  | cons d₀ rest ih =>
    intro k m hnodup hmem hsucc
    rw [List.map_cons, List.nodup_cons] at hnodup
    obtain ⟨hnd, hndrest⟩ := hnodup
    rcases List.mem_cons.mp hmem with heq | hmem'
    · subst heq
      rcases hprov : mysqlProvision e env d (String.intercalate "&" d.params) k
        with ⟨evs, k', r⟩
      cases r with
      | some err =>
        simp only [mysqlConnectLoop, hprov] at hsucc
        exact absurd hsucc (by simp)
      | none =>
        have hchar := @mysqlProvision_char e env d
          (String.intercalate "&" d.params) k hdry hac (by rw [hprov])
        rw [hprov] at hchar
        have hevs : evs =
            [Ev.logInfo (some d.name) ("Creating database [" ++ d.name ++ "]"),
             Ev.openAdmin d.name
               (mysqlDsnAdmin e (String.intercalate "&" d.params)) true,
             Ev.createDb d.name (mysqlCreateSql d.name) true,
             Ev.logInfo (some d.name)
               ("Creating database [" ++ d.name ++ "] successs")] := hchar
        have hCcnt : countP (isCreateFor d.name) evs = 1 := by
          rw [hevs]
          simp [countP, isCreateFor]
        have hCany : evs.any (isCreateFor d.name) = true := by
          rw [hevs]
          simp [isCreateFor]
        have hTany : evs.any (isTargetFor d.name) = false := by
          rw [hevs]
          simp [isTargetFor]
        simp only [mysqlConnectLoop, hprov] at hsucc ⊢
        cases hok : env.openOk k' with
        | false =>
          rw [hok] at hsucc
          simp at hsucc
        | true =>
          simp only [hok, if_true] at hsucc ⊢
          obtain ⟨hoc, hot⟩ := mysqlLoop_other_names e env d.name rest (k' + 1)
            (m ++ [(d.name, k')]) hnd
          constructor
          · simp only [countP_append]
            rw [hCcnt, hoc]
            simp [countP, isCreateFor]
          · refine cbt_append_left ?_ (Or.inr ?_)
            · refine cbt_append_left ?_ (Or.inr ?_)
              · exact cbt_append_left (cbt_of_no_target hTany) (Or.inr hCany)
              · rw [List.any_append, hCany]
                rfl
            · rw [List.any_append, List.any_append, hCany]
              rfl
    · have hne : d₀.name ≠ d.name := by
        intro h
        apply hnd
        rw [h]
        exact List.mem_map.mpr ⟨d, hmem', rfl⟩
      obtain ⟨hc, ht⟩ := @mysqlProvision_other_name e env d₀
        (String.intercalate "&" d₀.params) k d.name hne
      rcases hprov : mysqlProvision e env d₀ (String.intercalate "&" d₀.params) k
        with ⟨evs, k', r⟩
      rw [hprov] at hc ht
      have hc' : countP (isCreateFor d.name) evs = 0 := hc
      have ht' : evs.any (isTargetFor d.name) = false := ht
      cases r with
      | some err =>
        simp only [mysqlConnectLoop, hprov] at hsucc
        exact absurd hsucc (by simp)
      | none =>
        simp only [mysqlConnectLoop, hprov] at hsucc ⊢
        cases hok : env.openOk k' with
        | false =>
          rw [hok] at hsucc
          simp at hsucc
        | true =>
          simp only [hok, if_true] at hsucc ⊢
          obtain ⟨ihc, ihcbt⟩ := ih (k' + 1) (m ++ [(d₀.name, k')]) hndrest
            hmem' hsucc
          constructor
          · simp only [countP_append]
            rw [hc', ihc]
            simp [countP, isCreateFor, hne]
          · refine cbt_append_right ?_ ihcbt
            rw [List.any_append, List.any_append, ht']
            simp [isTargetFor, hne]

/-- In the success case the postgres provisioning step issues exactly one
existence query (the head of the idempotent check-then-create operation) for
its own sub-database, and no real connection open. -/
lemma pgProvision_query_self {e : PgEntry} {env : Env} {d : PgDatabaseInner}
    {params : List String} {k : Nat} (hdry : d.dryRun = false)
    (hac : d.autoCreate = true)
    (hsucc : (pgProvision e env d params k).2.2 = none) :
    countP (isQueryExistsFor d.name) (pgProvision e env d params k).1 = 1 ∧
    (pgProvision e env d params k).1.any (isQueryExistsFor d.name) = true ∧
    (pgProvision e env d params k).1.any (isTargetFor d.name) = false := by
  unfold pgProvision at hsucc ⊢
  simp only [hdry, hac, Bool.not_false, Bool.and_self, if_true] at hsucc ⊢
  cases h1 : env.openOk k with
  | false =>
    simp only [h1, Bool.false_eq_true, if_false] at hsucc
    simp at hsucc
  | true =>
    simp only [h1, if_true] at hsucc ⊢
    cases h2 : env.execOk (k + 1) with
    | false =>
      simp only [h2, Bool.false_eq_true, if_false] at hsucc
      simp at hsucc
    | true =>
      simp only [h2, if_true] at hsucc ⊢
      cases h3 : env.existsFound (k + 1) with
      | true =>
        simp only [h3, if_true]
        refine ⟨?_, ?_, ?_⟩ <;> simp [countP, isQueryExistsFor, isTargetFor]
      | false =>
        simp only [h3, Bool.false_eq_true, if_false] at hsucc ⊢
        cases h4 : env.execOk (k + 2) with
        | false =>
          simp only [h4, Bool.false_eq_true, if_false] at hsucc
          simp at hsucc
        | true =>
          simp only [h4, if_true]
          refine ⟨?_, ?_, ?_⟩ <;> simp [countP, isQueryExistsFor, isTargetFor]

lemma pgProvision_other_name {e : PgEntry} {env : Env} {d : PgDatabaseInner}
    {params : List String} {k : Nat} {nm : String} (hne : d.name ≠ nm) :
    countP (isQueryExistsFor nm) (pgProvision e env d params k).1 = 0 ∧
    (pgProvision e env d params k).1.any (isTargetFor nm) = false := by
  unfold pgProvision
  repeat' split
  all_goals simp [countP, isQueryExistsFor, isTargetFor, hne]

lemma pgLoop_other_names (e : PgEntry) (env : Env) (dsnParams : List String)
    (nm : String) :
    ∀ (ds : List PgDatabaseInner) (k : Nat) (m : List (String × Nat)),
      nm ∉ ds.map PgDatabaseInner.name →
      countP (isQueryExistsFor nm) (pgConnectLoop e env dsnParams ds k m).1 = 0 ∧
      (pgConnectLoop e env dsnParams ds k m).1.any (isTargetFor nm) = false := by
  intro ds
  induction ds with
  | nil =>
    intro k m _
    simp [pgConnectLoop, countP]
  | cons d rest ih =>
    intro k m hnm
    have hne : d.name ≠ nm := by
      intro h
      exact hnm (by simp [h])
    have hrest : nm ∉ rest.map PgDatabaseInner.name := by
      intro h
      exact hnm (by simp [h])
    obtain ⟨hc, ht⟩ := @pgProvision_other_name e env d (dsnParams ++ d.params)
      k nm hne
    rcases hprov : pgProvision e env d (dsnParams ++ d.params) k
      with ⟨evs, k', r⟩
    rw [hprov] at hc ht
    have hc' : countP (isQueryExistsFor nm) evs = 0 := hc
    have ht' : evs.any (isTargetFor nm) = false := ht
    cases r with
    | some err =>
      simp only [pgConnectLoop, hprov]
      exact ⟨hc', ht'⟩
    | none =>
      simp only [pgConnectLoop, hprov]
      cases hok : env.openOk k' with
      | false =>
        simp only [hok, Bool.false_eq_true, if_false, countP_append,
          List.any_append]
        rw [hc', ht']
        simp [countP, isQueryExistsFor, isTargetFor, hne]
      | true =>
        simp only [hok, if_true]
        split
        · simp only [countP_append, List.any_append]
          rw [hc', ht']
          simp [countP, isQueryExistsFor, isTargetFor, hne]
        · split
          · simp only [countP_append, List.any_append]
            rw [hc', ht']
            simp [countP, isQueryExistsFor, isTargetFor, hne]
          · obtain ⟨ihc, iht⟩ := ih (k' + 1) (m ++ [(d.name, k')]) hrest
            simp only [countP_append, List.any_append]
            rw [hc', ihc, ht', iht]
            simp [countP, isQueryExistsFor, isTargetFor, hne]

lemma pgLoop_query_spec (e : PgEntry) (env : Env) (dsnParams : List String)
    (d : PgDatabaseInner) (hdry : d.dryRun = false) (hac : d.autoCreate = true) :
    ∀ (ds : List PgDatabaseInner) (k : Nat) (m : List (String × Nat)),
      (ds.map PgDatabaseInner.name).Nodup → d ∈ ds →
      (pgConnectLoop e env dsnParams ds k m).2.2 = none →
      countP (isQueryExistsFor d.name)
        (pgConnectLoop e env dsnParams ds k m).1 = 1 ∧
      CreateBeforeTarget (isQueryExistsFor d.name) (isTargetFor d.name)
        (pgConnectLoop e env dsnParams ds k m).1 := by
  intro ds
  induction ds with
  | nil =>
    intro k m _ hmem
    cases hmem
  | cons d₀ rest ih =>
    intro k m hnodup hmem hsucc
    rw [List.map_cons, List.nodup_cons] at hnodup
    obtain ⟨hnd, hndrest⟩ := hnodup
    rcases List.mem_cons.mp hmem with heq | hmem'
    · subst heq
      rcases hprov : pgProvision e env d (dsnParams ++ d.params) k
        with ⟨evs, k', r⟩
      cases r with
      | some err =>
        simp only [pgConnectLoop, hprov] at hsucc
        exact absurd hsucc (by simp)
      | none =>
        obtain ⟨hq1, hq2, hq3⟩ := @pgProvision_query_self e env d
          (dsnParams ++ d.params) k hdry hac (by rw [hprov])
        rw [hprov] at hq1 hq2 hq3
        have hCcnt : countP (isQueryExistsFor d.name) evs = 1 := hq1
        have hCany : evs.any (isQueryExistsFor d.name) = true := hq2
        have hTany : evs.any (isTargetFor d.name) = false := hq3
        simp only [pgConnectLoop, hprov] at hsucc ⊢
        cases hok : env.openOk k' with
        | false =>
          rw [hok] at hsucc
          simp at hsucc
        | true =>
          simp only [hok, if_true] at hsucc ⊢
          by_cases hknob1 : 0 < d.maxOpenConn ∧ env.dbOk k' = false
          · rw [if_pos hknob1] at hsucc
            simp at hsucc
          · rw [if_neg hknob1] at hsucc ⊢
            by_cases hknob2 : 0 < d.maxIdleConn ∧ env.dbOk k' = false
            · rw [if_pos hknob2] at hsucc
              simp at hsucc
            · rw [if_neg hknob2] at hsucc ⊢
              obtain ⟨hoc, hot⟩ := pgLoop_other_names e env dsnParams d.name
                rest (k' + 1) (m ++ [(d.name, k')]) hnd
              constructor
              · simp only [countP_append]
                rw [hCcnt, hoc]
                simp [countP, isQueryExistsFor]
              · refine cbt_append_left ?_ (Or.inr ?_)
                · refine cbt_append_left ?_ (Or.inr ?_)
                  · exact cbt_append_left (cbt_of_no_target hTany)
                      (Or.inr hCany)
                  · rw [List.any_append, hCany]
                    rfl
                · rw [List.any_append, List.any_append, hCany]
                  rfl
    · have hne : d₀.name ≠ d.name := by
        intro h
        apply hnd
        rw [h]
        exact List.mem_map.mpr ⟨d, hmem', rfl⟩
      obtain ⟨hc, ht⟩ := @pgProvision_other_name e env d₀
        (dsnParams ++ d₀.params) k d.name hne
      rcases hprov : pgProvision e env d₀ (dsnParams ++ d₀.params) k
        with ⟨evs, k', r⟩
      rw [hprov] at hc ht
      have hc' : countP (isQueryExistsFor d.name) evs = 0 := hc
      have ht' : evs.any (isTargetFor d.name) = false := ht
      cases r with
      | some err =>
        simp only [pgConnectLoop, hprov] at hsucc
        exact absurd hsucc (by simp)
      | none =>
        simp only [pgConnectLoop, hprov] at hsucc ⊢
        cases hok : env.openOk k' with
        | false =>
          rw [hok] at hsucc
          simp at hsucc
        | true =>
          simp only [hok, if_true] at hsucc ⊢
          by_cases hknob1 : 0 < d₀.maxOpenConn ∧ env.dbOk k' = false
          · rw [if_pos hknob1] at hsucc
            simp at hsucc
          · rw [if_neg hknob1] at hsucc ⊢
            by_cases hknob2 : 0 < d₀.maxIdleConn ∧ env.dbOk k' = false
            · rw [if_pos hknob2] at hsucc
              simp at hsucc
            · rw [if_neg hknob2] at hsucc ⊢
              obtain ⟨ihc, ihcbt⟩ := ih (k' + 1) (m ++ [(d₀.name, k')])
                hndrest hmem' hsucc
              constructor
              · simp only [countP_append]
                rw [hc', ihc]
                simp [countP, isQueryExistsFor, hne]
              · refine cbt_append_right ?_ ihcbt
                rw [List.any_append, List.any_append, ht']
                simp [isTargetFor, hne]

def pgDbAuto : PgDatabaseInner :=
  { name := "reports", dryRun := false, autoCreate := true,
    preferSimpleProtocol := false, maxIdleConn := 0, maxOpenConn := 0,
    params := [] }

def pgEntAuto : PgEntry :=
  { entryName := "p-auto", user := "postgres", pass := "pw",
    addr := "localhost:5432", innerDbList := [pgDbAuto], gormDbMap := [],
    healthCheckEnabled := false, healthCheckIntervalMs := 0 }

/-- C4: for every sub-database descriptor with `autoCreate=true` and
`dryRun=false` (sub-database names being distinct), a successful `connect`
issues exactly one idempotent create-if-missing operation for that
sub-database — the `CREATE DATABASE IF NOT EXISTS` statement in mysql, the
existence-check heading the check-then-create sequence in postgres — and in
every prefix of the trace that operation precedes the first real connection
open for that sub-database. -/
theorem C4_create_once_before_connect :
    (∀ (e : MySqlEntry) (env : Env) (d : DatabaseInner),
      (e.innerDbList.map DatabaseInner.name).Nodup →
      d ∈ e.innerDbList → d.dryRun = false → d.autoCreate = true →
      (mysqlConnect e env).2.2 = none →
      countP (isCreateFor d.name) (mysqlConnect e env).1 = 1 ∧
      CreateBeforeTarget (isCreateFor d.name) (isTargetFor d.name)
        (mysqlConnect e env).1) ∧
    (∀ (e : PgEntry) (env : Env) (d : PgDatabaseInner),
      (e.innerDbList.map PgDatabaseInner.name).Nodup →
      d ∈ e.innerDbList → d.dryRun = false → d.autoCreate = true →
      (pgConnect e env).2.2 = none →
      countP (isQueryExistsFor d.name) (pgConnect e env).1 = 1 ∧
      CreateBeforeTarget (isQueryExistsFor d.name) (isTargetFor d.name)
        (pgConnect e env).1) := by
  constructor
  · intro e env d hnodup hmem hdry hac hsucc
    exact mysqlLoop_create_spec e env d hdry hac e.innerDbList 0 e.gormDbMap
      hnodup hmem hsucc
  · intro e env d hnodup hmem hdry hac hsucc
    unfold pgConnect at hsucc ⊢
    cases h : splitAddr e.addr with
    | nil =>
      rw [h] at hsucc
      simp at hsucc
    | cons host tl =>
      cases tl with
      | nil =>
        rw [h] at hsucc
        simp at hsucc
      | cons port tl2 =>
        cases tl2 with
        | nil =>
          rw [h] at hsucc
          exact pgLoop_query_spec e env _ d hdry hac e.innerDbList 0
            e.gormDbMap hnodup hmem hsucc
        | cons x tl3 =>
          rw [h] at hsucc
          simp at hsucc

theorem C4_create_once_before_connect_witness :
    ((mysqlEntAuto.innerDbList.map DatabaseInner.name).Nodup ∧
      dbAuto ∈ mysqlEntAuto.innerDbList ∧ dbAuto.dryRun = false ∧
      dbAuto.autoCreate = true ∧
      (mysqlConnect mysqlEntAuto envAllOk).2.2 = none ∧
      countP (isCreateFor dbAuto.name) (mysqlConnect mysqlEntAuto envAllOk).1 = 1 ∧
      CreateBeforeTarget (isCreateFor dbAuto.name) (isTargetFor dbAuto.name)
        (mysqlConnect mysqlEntAuto envAllOk).1) ∧
    ((pgEntAuto.innerDbList.map PgDatabaseInner.name).Nodup ∧
      pgDbAuto ∈ pgEntAuto.innerDbList ∧ pgDbAuto.dryRun = false ∧
      pgDbAuto.autoCreate = true ∧
      (pgConnect pgEntAuto envAllOk).2.2 = none ∧
      countP (isQueryExistsFor pgDbAuto.name) (pgConnect pgEntAuto envAllOk).1 = 1 ∧
      CreateBeforeTarget (isQueryExistsFor pgDbAuto.name)
        (isTargetFor pgDbAuto.name) (pgConnect pgEntAuto envAllOk).1) := by
  have h1 := C4_create_once_before_connect.1 mysqlEntAuto envAllOk dbAuto
    (by decide) (by decide) (by decide) (by decide) (by decide)
  have h2 := C4_create_once_before_connect.2 pgEntAuto envAllOk pgDbAuto
    (by decide) (by decide) (by decide) (by decide) (by decide)
  exact ⟨⟨by decide, by decide, by decide, by decide, by decide, h1.1, h1.2⟩,
    ⟨by decide, by decide, by decide, by decide, by decide, h2.1, h2.2⟩⟩

/-! ## C6 — a failure aborts the rest and terminates the process -/

lemma mysqlProvision_evDb (e : MySqlEntry) (env : Env) (d : DatabaseInner)
    (sp : String) (k : Nat) :
    ∀ ev ∈ (mysqlProvision e env d sp k).1, evDb ev = some d.name := by
  unfold mysqlProvision
  repeat' split
  all_goals simp [evDb]

lemma mysqlLoop_error_spec (e : MySqlEntry) (env : Env) :
    ∀ (ds : List DatabaseInner) (k : Nat) (m₀ : List (String × Nat))
      (tr : List Ev) (m : List (String × Nat)) (err : String),
      (ds.map DatabaseInner.name).Nodup →
      mysqlConnectLoop e env ds k m₀ = (tr, m, some err) →
      ∃ pre d suf, ds = pre ++ d :: suf ∧
        m.map Prod.fst = m₀.map Prod.fst ++ pre.map DatabaseInner.name ∧
        (∀ d' ∈ suf, ∀ ev ∈ tr, evDb ev ≠ some d'.name) := by
  intro ds
  induction ds with
  | nil =>
    intro k m₀ tr m err _ hrun
    simp [mysqlConnectLoop] at hrun
  | cons d₀ rest ih =>
    intro k m₀ tr m err hnodup hrun
    rw [List.map_cons, List.nodup_cons] at hnodup
    obtain ⟨hnd, hndrest⟩ := hnodup
    have hneOf : ∀ d' ∈ rest, d₀.name ≠ d'.name := by
      intro d' hd' h
      exact hnd (h ▸ List.mem_map.mpr ⟨d', hd', rfl⟩)
    rcases hprov : mysqlProvision e env d₀ (String.intercalate "&" d₀.params) k
      with ⟨evs, k', r⟩
    have hdb : ∀ ev ∈ evs, evDb ev = some d₀.name := by
      have := mysqlProvision_evDb e env d₀ (String.intercalate "&" d₀.params) k
      rw [hprov] at this
      exact this
    cases r with
    | some perr =>
      simp only [mysqlConnectLoop, hprov, Prod.mk.injEq] at hrun
      obtain ⟨h1, h2, h3⟩ := hrun
      refine ⟨[], d₀, rest, rfl, ?_, ?_⟩
      · rw [← h2]
        simp
      · intro d' hd' ev hev
        rw [← h1] at hev
        rw [hdb ev hev]
        simp [hneOf d' hd']
    | none =>
      simp only [mysqlConnectLoop, hprov] at hrun
      cases hok : env.openOk k' with
      | false =>
        simp only [hok, Bool.false_eq_true, if_false, Prod.mk.injEq] at hrun
        obtain ⟨h1, h2, h3⟩ := hrun
        refine ⟨[], d₀, rest, rfl, ?_, ?_⟩
        · rw [← h2]
          simp
        · intro d' hd' ev hev
          rw [← h1] at hev
          have hdb2 : evDb ev = some d₀.name := by
            rcases List.mem_append.mp hev with h4 | h5
            · exact hdb ev h4
            · simp only [List.mem_cons, List.not_mem_nil, or_false] at h5
              rcases h5 with rfl | rfl <;> rfl
          rw [hdb2]
          simp [hneOf d' hd']
      | true =>
        simp only [hok, if_true] at hrun
        rcases hres : mysqlConnectLoop e env rest (k' + 1)
          (m₀ ++ [(d₀.name, k')]) with ⟨tr', m', r'⟩
        rw [hres] at hrun
        simp only [Prod.mk.injEq] at hrun
        obtain ⟨htr, hm, hr⟩ := hrun
        rw [hr] at hres
        obtain ⟨pre', dmid, suf', hds, hmap, hevs⟩ :=
          ih (k' + 1) (m₀ ++ [(d₀.name, k')]) tr' m' err hndrest hres
        have hsub : ∀ d' ∈ suf', d' ∈ rest := by
          intro d' hd'
          rw [hds]
          exact List.mem_append_right _ (List.mem_cons_of_mem _ hd')
        refine ⟨d₀ :: pre', dmid, suf', by rw [hds, List.cons_append], ?_, ?_⟩
        · rw [← hm, hmap]
          simp
        · intro d' hd' ev hev
          rw [← htr] at hev
          have hne := hneOf d' (hsub d' hd')
          rcases List.mem_append.mp hev with hev1 | hev2
          · have hdb3 : evDb ev = some d₀.name := by
              rcases List.mem_append.mp hev1 with h11 | h12
              · rcases List.mem_append.mp h11 with h111 | h112
                · exact hdb ev h111
                · simp only [List.mem_cons, List.not_mem_nil, or_false] at h112
                  rcases h112 with rfl | rfl <;> rfl
              · simp only [List.mem_cons, List.not_mem_nil, or_false] at h12
                rw [h12]
                rfl
            rw [hdb3]
            simp [hne]
          · exact hevs d' hd' ev hev2

/-- C6: when provisioning or a connection open fails mid-`connect`, the
descriptors after the failing one are never touched (no event of the trace
carries their name), the connections already opened for earlier descriptors
stay in the map and are never closed, and `Bootstrap` logs the error and
terminates the process with the masked shutdown message. -/
theorem C6_failure_aborts (e : MySqlEntry) (env : Env) (tr : List Ev)
    (m : List (String × Nat)) (err : String)
    (hnodup : (e.innerDbList.map DatabaseInner.name).Nodup)
    (hrun : mysqlConnect e env = (tr, m, some err)) :
    (∃ pre d suf, e.innerDbList = pre ++ d :: suf ∧
      m.map Prod.fst = e.gormDbMap.map Prod.fst ++ pre.map DatabaseInner.name ∧
      (∀ d' ∈ suf, ∀ ev ∈ tr, evDb ev ≠ some d'.name)) ∧
    countP isCloseEv tr = 0 ∧
    (mysqlBootstrap e env).2 =
      BootOutcome.terminated (mysqlShutdownMsg e) { e with gormDbMap := m } ∧
    Ev.logError "Failed to connect to database" (some err) ∈
      (mysqlBootstrap e env).1 := by
  refine ⟨mysqlLoop_error_spec e env e.innerDbList 0 e.gormDbMap tr m err
    hnodup hrun, ?_, ?_, ?_⟩
  · have h0 := mysqlLoop_no_close e env e.innerDbList 0 e.gormDbMap
    rw [show mysqlConnectLoop e env e.innerDbList 0 e.gormDbMap =
      (tr, m, some err) from hrun] at h0
    exact h0
  · simp only [mysqlBootstrap, hrun]
  · simp only [mysqlBootstrap, hrun]
    simp [List.mem_append]

def c6Trace : List Ev :=
  [Ev.logInfo (some "users") "Connecting to database [users]",
   Ev.openTarget "users" (mysqlDsnTarget mysqlEnt2 "users" "") true,
   Ev.logInfo (some "users") "Connecting to database [users] success",
   Ev.logInfo (some "orders") "Connecting to database [orders]",
   Ev.openTarget "orders" (mysqlDsnTarget mysqlEnt2 "orders" "") false]

theorem C6_failure_aborts_witness :
    ((mysqlEnt2.innerDbList.map DatabaseInner.name).Nodup ∧
     mysqlConnect mysqlEnt2 envFailSecondOpen =
       (c6Trace, [("users", 0)], some "dial tcp: connection refused")) ∧
    ((∃ pre d suf, mysqlEnt2.innerDbList = pre ++ d :: suf ∧
       ([("users", 0)] : List (String × Nat)).map Prod.fst =
         mysqlEnt2.gormDbMap.map Prod.fst ++ pre.map DatabaseInner.name ∧
       (∀ d' ∈ suf, ∀ ev ∈ c6Trace, evDb ev ≠ some d'.name)) ∧
     countP isCloseEv c6Trace = 0 ∧
     (mysqlBootstrap mysqlEnt2 envFailSecondOpen).2 =
       BootOutcome.terminated (mysqlShutdownMsg mysqlEnt2)
         { mysqlEnt2 with gormDbMap := [("users", 0)] } ∧
     Ev.logError "Failed to connect to database"
         (some "dial tcp: connection refused") ∈
       (mysqlBootstrap mysqlEnt2 envFailSecondOpen).1) :=
  ⟨⟨by decide, by decide⟩,
    C6_failure_aborts mysqlEnt2 envFailSecondOpen c6Trace [("users", 0)]
      "dial tcp: connection refused" (by decide) (by decide)⟩

/-! ## C9 — the password never reaches log or error text -/

def mysqlSetPass (e : MySqlEntry) (p : String) : MySqlEntry :=
  { e with pass := p }

def pgSetPass (e : PgEntry) (p : String) : PgEntry :=
  { e with pass := p }

/-- What an observer of the logger and the returned error sees of a
`connect` run: the log events, the connection map, and the error. -/
def obsView (x : List Ev × List (String × Nat) × Option String) :
    List Ev × List (String × Nat) × Option String :=
  (logsOf x.1, x.2)

/-- The observable part of a provisioning step. -/
def obsProv (x : List Ev × Nat × Option String) :
    List Ev × Nat × Option String :=
  (logsOf x.1, x.2)

/-- The message `ShutdownWithError` receives, if Bootstrap terminates. -/
def bootObs : BootOutcome → Option String
  | .ok _ => none
  | .terminated msg _ => some msg

def pgBootObs : PgBootOutcome → Option String
  | .ok _ => none
  | .terminated msg _ => some msg

lemma logsOf_append (a b : List Ev) : logsOf (a ++ b) = logsOf a ++ logsOf b := by
  simp [logsOf]

lemma mysqlProvision_view (e₁ e₂ : MySqlEntry) (env : Env) (d : DatabaseInner)
    (sp₁ sp₂ : String) (k : Nat) :
    obsProv (mysqlProvision e₁ env d sp₁ k) =
      obsProv (mysqlProvision e₂ env d sp₂ k) := by
  unfold mysqlProvision
  repeat' split
  all_goals simp [obsProv, logsOf, isLogEv]

lemma mysqlLoop_view (e₁ e₂ : MySqlEntry) (env : Env) :
    ∀ (ds : List DatabaseInner) (k : Nat) (m : List (String × Nat)),
      obsView (mysqlConnectLoop e₁ env ds k m) =
        obsView (mysqlConnectLoop e₂ env ds k m) := by
  intro ds
  induction ds with
  | nil =>
    intro k m
    rfl
  | cons d rest ih =>
    intro k m
    have hp := mysqlProvision_view e₁ e₂ env d (String.intercalate "&" d.params)
      (String.intercalate "&" d.params) k
    rcases hprov₁ : mysqlProvision e₁ env d (String.intercalate "&" d.params) k
      with ⟨evs₁, k₁, r₁⟩
    rcases hprov₂ : mysqlProvision e₂ env d (String.intercalate "&" d.params) k
      with ⟨evs₂, k₂, r₂⟩
    rw [hprov₁, hprov₂] at hp
    simp only [obsProv, Prod.mk.injEq] at hp
    obtain ⟨hlog, hk, hr⟩ := hp
    subst hk
    subst hr
    cases r₁ with
    | some err =>
      simp only [mysqlConnectLoop, hprov₁, hprov₂, obsView]
      rw [hlog]
    | none =>
      simp only [mysqlConnectLoop, hprov₁, hprov₂]
      cases hok : env.openOk k₁ with
      | false =>
        simp only [hok, Bool.false_eq_true, if_false, obsView, logsOf_append]
        rw [hlog]
        simp [logsOf, isLogEv]
      | true =>
        simp only [hok, if_true]
        have ihv := ih (k₁ + 1) (m ++ [(d.name, k₁)])
        rcases hres₁ : mysqlConnectLoop e₁ env rest (k₁ + 1)
          (m ++ [(d.name, k₁)]) with ⟨tr₁, mm₁, rr₁⟩
        rcases hres₂ : mysqlConnectLoop e₂ env rest (k₁ + 1)
          (m ++ [(d.name, k₁)]) with ⟨tr₂, mm₂, rr₂⟩
        rw [hres₁, hres₂] at ihv
        simp only [obsView, Prod.mk.injEq] at ihv
        obtain ⟨ihlog, ihm, ihr⟩ := ihv
        subst ihm
        subst ihr
        simp only [obsView, logsOf_append]
        rw [hlog, ihlog]
        simp [logsOf, isLogEv]

lemma pgProvision_view (e₁ e₂ : PgEntry) (hu : e₁.user = e₂.user) (env : Env)
    (d : PgDatabaseInner) (params₁ params₂ : List String) (k : Nat) :
    obsProv (pgProvision e₁ env d params₁ k) =
      obsProv (pgProvision e₂ env d params₂ k) := by
  unfold pgProvision
  repeat' split
  all_goals simp [obsProv, logsOf, isLogEv, hu]

lemma pgLoop_view (e₁ e₂ : PgEntry) (hu : e₁.user = e₂.user) (env : Env)
    (dsn₁ dsn₂ : List String) :
    ∀ (ds : List PgDatabaseInner) (k : Nat) (m : List (String × Nat)),
      obsView (pgConnectLoop e₁ env dsn₁ ds k m) =
        obsView (pgConnectLoop e₂ env dsn₂ ds k m) := by
  intro ds
  induction ds with
  | nil =>
    intro k m
    rfl
  | cons d rest ih =>
    intro k m
    have hp := pgProvision_view e₁ e₂ hu env d (dsn₁ ++ d.params)
      (dsn₂ ++ d.params) k
    rcases hprov₁ : pgProvision e₁ env d (dsn₁ ++ d.params) k
      with ⟨evs₁, k₁, r₁⟩
    rcases hprov₂ : pgProvision e₂ env d (dsn₂ ++ d.params) k
      with ⟨evs₂, k₂, r₂⟩
    rw [hprov₁, hprov₂] at hp
    simp only [obsProv, Prod.mk.injEq] at hp
    obtain ⟨hlog, hk, hr⟩ := hp
    subst hk
    subst hr
    cases r₁ with
    | some err =>
      simp only [pgConnectLoop, hprov₁, hprov₂, obsView]
      rw [hlog]
    | none =>
      simp only [pgConnectLoop, hprov₁, hprov₂]
      cases hok : env.openOk k₁ with
      | false =>
        simp only [hok, Bool.false_eq_true, if_false, obsView, logsOf_append]
        rw [hlog]
        simp [logsOf, isLogEv]
      | true =>
        simp only [hok, if_true]
        by_cases hknob1 : 0 < d.maxOpenConn ∧ env.dbOk k₁ = false
        · rw [if_pos hknob1, if_pos hknob1]
          simp only [obsView, logsOf_append]
          rw [hlog]
          simp [logsOf, isLogEv]
        · rw [if_neg hknob1, if_neg hknob1]
          by_cases hknob2 : 0 < d.maxIdleConn ∧ env.dbOk k₁ = false
          · rw [if_pos hknob2, if_pos hknob2]
            simp only [obsView, logsOf_append]
            rw [hlog]
            simp [logsOf, isLogEv]
          · rw [if_neg hknob2, if_neg hknob2]
            have ihv := ih (k₁ + 1) (m ++ [(d.name, k₁)])
            rcases hres₁ : pgConnectLoop e₁ env dsn₁ rest (k₁ + 1)
              (m ++ [(d.name, k₁)]) with ⟨tr₁, mm₁, rr₁⟩
            rcases hres₂ : pgConnectLoop e₂ env dsn₂ rest (k₁ + 1)
              (m ++ [(d.name, k₁)]) with ⟨tr₂, mm₂, rr₂⟩
            rw [hres₁, hres₂] at ihv
            simp only [obsView, Prod.mk.injEq] at ihv
            obtain ⟨ihlog, ihm, ihr⟩ := ihv
            subst ihm
            subst ihr
            simp only [obsView, logsOf_append]
            rw [hlog, ihlog]
            simp [logsOf, isLogEv]

/-- C9: for two Bootstrap runs that differ only in the configured password
(the environment behaving identically call-for-call), the log events and the
shutdown error message are identical: the password never reaches log or
error text — mysql masks it as `****`, postgres omits it entirely.  (It does
reach the DSNs handed to the driver, which are not logged.) -/
theorem C9_password_not_logged (e : MySqlEntry) (pe : PgEntry) (env : Env)
    (p₁ p₂ : String) :
    logsOf (mysqlBootstrap (mysqlSetPass e p₁) env).1 =
      logsOf (mysqlBootstrap (mysqlSetPass e p₂) env).1 ∧
    bootObs (mysqlBootstrap (mysqlSetPass e p₁) env).2 =
      bootObs (mysqlBootstrap (mysqlSetPass e p₂) env).2 ∧
    logsOf (pgBootstrap (pgSetPass pe p₁) env).1 =
      logsOf (pgBootstrap (pgSetPass pe p₂) env).1 ∧
    pgBootObs (pgBootstrap (pgSetPass pe p₁) env).2 =
      pgBootObs (pgBootstrap (pgSetPass pe p₂) env).2 := by
  have hmy : obsView (mysqlConnect (mysqlSetPass e p₁) env) =
      obsView (mysqlConnect (mysqlSetPass e p₂) env) :=
    mysqlLoop_view (mysqlSetPass e p₁) (mysqlSetPass e p₂) env
      e.innerDbList 0 e.gormDbMap
  have hpg : obsView (pgConnect (pgSetPass pe p₁) env) =
      obsView (pgConnect (pgSetPass pe p₂) env) := by
    unfold pgConnect
    have ha : (pgSetPass pe p₁).addr = (pgSetPass pe p₂).addr := rfl
    rw [← ha]
    cases h : splitAddr (pgSetPass pe p₁).addr with
    | nil => rfl
    | cons host tl =>
      cases tl with
      | nil => rfl
      | cons port tl2 =>
        cases tl2 with
        | nil =>
          exact pgLoop_view (pgSetPass pe p₁) (pgSetPass pe p₂) rfl env _ _
            pe.innerDbList 0 pe.gormDbMap
        | cons x tl3 => rfl
  rcases hc₁ : mysqlConnect (mysqlSetPass e p₁) env with ⟨tr₁, m₁, r₁⟩
  rcases hc₂ : mysqlConnect (mysqlSetPass e p₂) env with ⟨tr₂, m₂, r₂⟩
  rw [hc₁, hc₂] at hmy
  simp only [obsView, Prod.mk.injEq] at hmy
  obtain ⟨hlog, hm, hr⟩ := hmy
  subst hm
  subst hr
  rcases hd₁ : pgConnect (pgSetPass pe p₁) env with ⟨ptr₁, pm₁, pr₁⟩
  rcases hd₂ : pgConnect (pgSetPass pe p₂) env with ⟨ptr₂, pm₂, pr₂⟩
  rw [hd₁, hd₂] at hpg
  simp only [obsView, Prod.mk.injEq] at hpg
  obtain ⟨hplog, hpm, hpr⟩ := hpg
  subst hpm
  subst hpr
  refine ⟨?_, ?_, ?_, ?_⟩
  · cases r₁ with
    | none =>
      simp only [mysqlBootstrap, hc₁, hc₂]
      simp only [logsOf_append]
      rw [hlog]
    | some err =>
      simp only [mysqlBootstrap, hc₁, hc₂]
      simp only [logsOf_append]
      rw [hlog]
  · cases r₁ with
    | none => simp only [mysqlBootstrap, hc₁, hc₂, bootObs]
    | some err =>
      simp only [mysqlBootstrap, hc₁, hc₂, bootObs]
      rfl
  · cases pr₁ with
    | none =>
      simp only [pgBootstrap, hd₁, hd₂]
      simp only [logsOf_append]
      rw [hplog]
    | some err =>
      simp only [pgBootstrap, hd₁, hd₂]
      simp only [logsOf_append]
      rw [hplog]
  · cases pr₁ with
    | none => simp only [pgBootstrap, hd₁, hd₂, pgBootObs]
    | some err =>
      simp only [pgBootstrap, hd₁, hd₂, pgBootObs]
      rfl

end RkDb
